import Mathlib

/-!
Verification of the `SpineDBWorker` slots of Spine-Toolbox
(`spinetoolbox/spine_db_worker.py`) against the repository's
natural-language specification.

The worker's slot methods are embedded as pure Lean functions.  External
collaborators (the `spinedb_api` database mapping, the manager's cache and
undo stacks, Qt signals) are represented as explicit oracles, state records
and emission lists.  Parts of the repository that the claims need but whose
code is not among the sources here (the undo-command classes, the Qt undo
stack, the manager's cache bookkeeping) are modelled from the spec and say
so in their doc comments.
-/

set_option autoImplicit false

namespace SpineDB

/-- Opaque identifier of one open database mapping (a "Connection"). -/
abbrev Conn := Nat

/-- One database item, opaque to the worker (it only passes items through). -/
abbrev Item := Nat

/-- The cache-side form of an item (the result of the manager's `db_to_cache`). -/
abbrev CacheItem := Nat

/-- A human-readable error message string. -/
abbrev ErrMsg := String

/-- An item-type name such as `"object"` or `"parameter_value"`. -/
abbrev ItemType := String

/-- Ids of items per item type, as handed to `cascading_ids` / `remove_items`. -/
abbrev TypedIds := List (ItemType × List Nat)

/-- Python dict lookup `d.get(k)` on an association list (first binding wins). -/
def alookup {κ α : Type} [DecidableEq κ] (c : κ) : List (κ × α) → Option α
  | [] => none
  | (k, v) :: rest => if k = c then some v else alookup c rest

/-- Python dict assignment `d[k] = v`: replace the first binding of `k`, else append. -/
def aset {κ α : Type} [DecidableEq κ] (c : κ) (v : α) : List (κ × α) → List (κ × α)
  | [] => [(c, v)]
  | (k, w) :: rest => if k = c then (c, v) :: rest else (k, w) :: aset c v rest

/-- Python `d.setdefault(k, []).extend(vs)`: append `vs` to the binding of `k`,
creating an empty binding first when the key is absent. -/
def aextend {κ : Type} [DecidableEq κ] (c : κ) (vs : List ErrMsg) :
    List (κ × List ErrMsg) → List (κ × List ErrMsg)
  | [] => [(c, vs)]
  | (k, w) :: rest => if k = c then (k, w ++ vs) :: rest else (k, w) :: aextend c vs rest

/-- Python `k in d` on an association list. -/
def ahasKey {κ α : Type} [DecidableEq κ] (c : κ) (l : List (κ × α)) : Bool :=
  (alookup c l).isSome

/-- Python `del d[k]` minus the `KeyError` case: drop the first binding of `k`. -/
def aerase {κ α : Type} [DecidableEq κ] (c : κ) : List (κ × α) → List (κ × α)
  | [] => []
  | (k, w) :: rest => if k = c then rest else (k, w) :: aerase c rest

/-- Python `any(d.values())` for a dict whose values are lists: some value nonempty. -/
def anyTruthyLists {κ : Type} (l : List (κ × List ErrMsg)) : Bool :=
  l.any (fun p => !p.2.isEmpty)

/-- Python `any(d.values())` for a dict whose values are strings: some value nonempty. -/
def anyTruthyStrs {κ : Type} (l : List (κ × ErrMsg)) : Bool :=
  l.any (fun p => !p.2.isEmpty)

/-- Pointwise update of a per-connection state function. -/
def updFn {α : Type} (f : Conn → α) (c : Conn) (v : α) : Conn → α :=
  fun x => if x = c then v else f x

/-- A Qt signal emission observable from the worker's slot methods. -/
inductive Emission where
  /-- A per-item-type "items added/updated" manager signal with its payload. -/
  | itemsSignal (signalName : String) (c : Conn) (payload : List CacheItem)
  /-- `error_msg.emit` with a dict of message lists keyed by connection. -/
  | errorMsgLists (log : List (Conn × List ErrMsg))
  /-- `error_msg.emit` with a dict of single messages keyed by connection. -/
  | errorMsgStrs (log : List (Conn × ErrMsg))
  /-- `session_committed.emit` carrying the committed connections. -/
  | sessionCommitted (conns : List Conn)
  /-- `session_rolled_back.emit` carrying the rolled-back connections. -/
  | sessionRolledBack (conns : List Conn)
  /-- `data_imported.emit`. -/
  | dataImported
  /-- `caller.file_exported.emit(path)`. -/
  | fileExported (path : String)
  /-- `caller.sqlite_file_exported.emit(path)`. -/
  | sqliteFileExported (path : String)
  /-- `caller.msg_error.emit({None: msgs})`. -/
  | callerMsgError (msgs : List ErrMsg)
  deriving Repr, DecidableEq

/-- Is this emission a "session committed" notification? -/
def Emission.isSessionCommitted : Emission → Bool
  | .sessionCommitted _ => true
  | _ => false

/-- Is this emission a "session rolled back" notification? -/
def Emission.isSessionRolledBack : Emission → Bool
  | .sessionRolledBack _ => true
  | _ => false

/-- Is this emission an items signal for connection `b`? -/
def Emission.isItemsSignalFor (b : Conn) : Emission → Bool
  | .itemsSignal _ c _ => c == b
  | _ => false

/-- Is this emission any items signal? -/
def Emission.isItemsSignal : Emission → Bool
  | .itemsSignal _ _ _ => true
  | _ => false

/-- Is this emission an error report (`error_msg` or `caller.msg_error`)? -/
def Emission.isErrorReport : Emission → Bool
  | .errorMsgLists _ => true
  | .errorMsgStrs _ => true
  | .callerMsgError _ => true
  | _ => false

/-- The backing store connection handle of a db map; only its `closed` flag is
observable to `_close_db_map`. -/
structure DBConnection where
  closed : Bool
  deriving Repr, DecidableEq

/-- `connection.close()` — the external close effect: the handle becomes closed. -/
def connClose (c : DBConnection) : DBConnection :=
  { c with closed := true }

/-- `SpineDBWorker._close_db_map` (spine_db_worker.py:103-106): close the db map's
backing connection only when it is not already closed. -/
def closeDbMap (c : DBConnection) : DBConnection :=
  if !c.closed then connClose c else c

/-- Modelled from the spec: one child undoable command of a composite ("macro")
command — an `AddItemsCommand` or `UpdateItemsCommand` for one item type; the
command classes are not among the sources here.  `obsolete` is the terminal flag:
per the spec a child whose execution applied nothing (a no-op) is obsolete. -/
structure ChildCmd where
  itemType : ItemType
  isAdd : Bool
  items : List Item
  obsolete : Bool
  deriving Repr, DecidableEq

/-- Modelled from the spec: a composite ("macro") command — "a named ordered group
of child undoable commands treated as one undo/redo unit" — with its own terminal
obsolete flag (`AgedUndoCommand` is not among the sources here). -/
structure GroupCmd where
  text : String
  children : List ChildCmd
  obsolete : Bool
  deriving Repr, DecidableEq

/-- Modelled from the spec: `CommandHistory` — "one ordered, position-indexed list of
commands per Connection, with a 'clean index' marking the last committed position"
(the Qt undo stack is not among the sources here).  Commands before `index` count
as executed. -/
structure CommandHistory where
  commands : List GroupCmd
  index : Nat
  cleanIdx : Nat
  deriving Repr, DecidableEq

/-- Modelled from the spec: pushing onto the history "discards all commands after
the current position", appends the new command and advances the position; the
clean index is not touched. -/
def histPush (h : CommandHistory) (g : GroupCmd) : CommandHistory :=
  { commands := h.commands.take h.index ++ [g], index := h.index + 1, cleanIdx := h.cleanIdx }

/-- Modelled from the spec: `undo` on the history.  An obsolete command "is a no-op
on both undo and redo and marked for removal from history", so undoing over an
obsolete command removes it from the list; otherwise only the position steps back. -/
def histUndo (h : CommandHistory) : CommandHistory :=
  match h.index with
  | 0 => h
  | i + 1 =>
    match h.commands[i]? with
    | none => { h with index := i }
    | some g =>
      if g.obsolete then
        { h with commands := h.commands.take i ++ h.commands.drop (i + 1), index := i }
      else { h with index := i }

/-- Modelled from the spec: `setClean` — "commit_session advances the clean index to
current position". -/
def histSetClean (h : CommandHistory) : CommandHistory :=
  { h with cleanIdx := h.index }

/-- Modelled from the spec: `clear` — rollback "clears the entire history". -/
def emptyHistory : CommandHistory :=
  { commands := [], index := 0, cleanIdx := 0 }

/-- Loop state of `_commit_session`: per-connection histories, the set of committed
connections (in commit order), the error log and the trace of store commit calls. -/
structure CommitAcc where
  hist : Conn → CommandHistory
  committed : List Conn
  errLog : List (Conn × ErrMsg)
  storeCalls : List Conn

/-- The `for db_map in dirty_db_maps` loop of `_commit_session`
(spine_db_worker.py:214-220): try the store commit for each connection in turn;
on success remember the connection and mark its history clean, on a
`SpineDBAPIError` record the message; either way continue with the rest.
`storeCommit` is the external `db_map.commit_session` (`none` = success,
`some e` = `SpineDBAPIError` with message `e`). -/
def commitLoop (storeCommit : Conn → Option ErrMsg) :
    List Conn → CommitAcc → CommitAcc
  | [], acc => acc
  | c :: rest, acc =>
    match storeCommit c with
    | none =>
      commitLoop storeCommit rest
        { hist := updFn acc.hist c (histSetClean (acc.hist c)),
          committed := acc.committed ++ [c],
          errLog := acc.errLog,
          storeCalls := acc.storeCalls ++ [c] }
    | some e =>
      commitLoop storeCommit rest
        { acc with errLog := aset c e acc.errLog, storeCalls := acc.storeCalls ++ [c] }

/-- Result of `_commit_session`. -/
structure CommitResult where
  hist : Conn → CommandHistory
  committed : List Conn
  errLog : List (Conn × ErrMsg)
  storeCalls : List Conn
  emissions : List Emission

/-- The initial accumulator of the commit loop. -/
def commitInit (hist : Conn → CommandHistory) : CommitAcc :=
  { hist := hist, committed := [], errLog := [], storeCalls := [] }

/-- The emissions at the end of `_commit_session` (spine_db_worker.py:221-224):
the error log when any collected message is truthy, and one "session committed"
notification carrying the committed connections when that set is nonempty. -/
def commitEmissions (acc : CommitAcc) : List Emission :=
  (if anyTruthyStrs acc.errLog then [.errorMsgStrs acc.errLog] else []) ++
  (if acc.committed.isEmpty then [] else [.sessionCommitted acc.committed])

/-- `SpineDBWorker._commit_session` (spine_db_worker.py:210-224): run the commit
loop over the dirty connections, then produce the final emissions. -/
def commitSession (storeCommit : Conn → Option ErrMsg) (batch : List Conn)
    (hist : Conn → CommandHistory) : CommitResult :=
  { hist := (commitLoop storeCommit batch (commitInit hist)).hist,
    committed := (commitLoop storeCommit batch (commitInit hist)).committed,
    errLog := (commitLoop storeCommit batch (commitInit hist)).errLog,
    storeCalls := (commitLoop storeCommit batch (commitInit hist)).storeCalls,
    emissions := commitEmissions (commitLoop storeCommit batch (commitInit hist)) }

/-- One connection's slice of the manager's `_cache` dict, as seen by the rollback
and remove paths: the cached ids per item type. -/
abbrev CacheEntry := TypedIds

/-- Loop state of `_rollback_session`: the per-connection marker of the external
store rollback effect, the histories, the manager's `_cache` dict, the rolled-back
connections and the error log. -/
structure RbAcc where
  storeRolledBack : Conn → Bool
  hist : Conn → CommandHistory
  cache : List (Conn × CacheEntry)
  rolled : List Conn
  errLog : List (Conn × ErrMsg)

/-- The `for db_map in dirty_db_maps` loop of `_rollback_session`
(spine_db_worker.py:233-240).  On store success the connection is remembered, its
history cleared, and then `del self._db_mngr._cache[db_map]` runs: when the key is
absent this raises `KeyError`, which is not a `SpineDBAPIError` and therefore
escapes the loop (second component `true`), leaving the loop's effects so far in
place and the remaining connections unprocessed. -/
def rollbackLoop (storeRollback : Conn → Option ErrMsg) :
    List Conn → RbAcc → RbAcc × Bool
  | [], acc => (acc, false)
  | c :: rest, acc =>
    match storeRollback c with
    | some e =>
      rollbackLoop storeRollback rest { acc with errLog := aset c e acc.errLog }
    | none =>
      let acc' : RbAcc :=
        { acc with
          storeRolledBack := updFn acc.storeRolledBack c true,
          rolled := acc.rolled ++ [c],
          hist := updFn acc.hist c emptyHistory }
      if ahasKey c acc'.cache then
        rollbackLoop storeRollback rest { acc' with cache := aerase c acc'.cache }
      else (acc', true)

/-- Result of `_rollback_session`: final state, emissions, and whether an uncaught
`KeyError` escaped the slot. -/
structure RollbackResult where
  state : RbAcc
  emissions : List Emission
  raisedKeyError : Bool

/-- The initial accumulator of the rollback loop. -/
def rbInit (hist : Conn → CommandHistory) (cache : List (Conn × CacheEntry)) : RbAcc :=
  { storeRolledBack := fun _ => false, hist := hist, cache := cache,
    rolled := [], errLog := [] }

/-- The emissions at the end of a normally completed `_rollback_session`
(spine_db_worker.py:241-244): the error log when any collected message is truthy,
and one "session rolled back" notification when anything was rolled back. -/
def rollbackEmissions (acc : RbAcc) : List Emission :=
  (if anyTruthyStrs acc.errLog then [.errorMsgStrs acc.errLog] else []) ++
  (if acc.rolled.isEmpty then [] else [.sessionRolledBack acc.rolled])

/-- `SpineDBWorker._rollback_session` (spine_db_worker.py:229-244): run the rollback
loop; when it completes normally, produce the final emissions.  When the loop
raises (`KeyError` from the cache `del`), nothing is emitted at all. -/
def rollbackSession (storeRollback : Conn → Option ErrMsg) (batch : List Conn)
    (hist : Conn → CommandHistory) (cache : List (Conn × CacheEntry)) : RollbackResult :=
  if (rollbackLoop storeRollback batch (rbInit hist cache)).2 then
    { state := (rollbackLoop storeRollback batch (rbInit hist cache)).1,
      emissions := [], raisedKeyError := true }
  else
    { state := (rollbackLoop storeRollback batch (rbInit hist cache)).1,
      emissions := rollbackEmissions (rollbackLoop storeRollback batch (rbInit hist cache)).1,
      raisedKeyError := false }

/-- Loop state of `_add_or_update_items`: the error log, the emissions so far and
the trace of store method calls `(connection, items, check)`. -/
structure AouAcc where
  errLog : List (Conn × List ErrMsg)
  emissions : List Emission
  storeCalls : List (Conn × List Item × Bool)

/-- The `for db_map, items in db_map_data.items()` loop of `_add_or_update_items`
(spine_db_worker.py:152-160).  `storeMethod` is the external
`getattr(db_map, method_name)(*items, check=check, return_items=True, cache=cache)`
call, returning the applied items and the per-row error list; the per-connection
cache the store receives is absorbed into the oracle's `Conn` argument since the
loop never mutates it.  Errors are stored under the connection only when nonempty;
a connection that applied nothing emits no items signal (`continue`). -/
def aouLoop (storeMethod : Conn → List Item → Bool → List Item × List ErrMsg)
    (dbToCache : Conn → ItemType → Item → CacheItem)
    (itemType : ItemType) (signalName : String) (check : Bool) :
    List (Conn × List Item) → AouAcc → AouAcc
  | [], acc => acc
  | (c, items) :: rest, acc =>
    let r := storeMethod c items check
    let errLog := if r.2.isEmpty then acc.errLog else aset c r.2 acc.errLog
    let emissions :=
      if r.1.isEmpty then acc.emissions
      else acc.emissions ++ [.itemsSignal signalName c (r.1.map (dbToCache c itemType))]
    aouLoop storeMethod dbToCache itemType signalName check rest
      { errLog := errLog, emissions := emissions,
        storeCalls := acc.storeCalls ++ [(c, items, check)] }

/-- The initial accumulator of the add-or-update loop. -/
def aouInit : AouAcc :=
  { errLog := [], emissions := [], storeCalls := [] }

/-- `SpineDBWorker._add_or_update_items` (spine_db_worker.py:139-162): run the loop
over the batch, then emit the collected error log once when any connection has a
nonempty error list. -/
def addOrUpdateItems (storeMethod : Conn → List Item → Bool → List Item × List ErrMsg)
    (dbToCache : Conn → ItemType → Item → CacheItem)
    (itemType : ItemType) (signalName : String) (check : Bool)
    (batch : List (Conn × List Item)) : AouAcc :=
  { errLog := (aouLoop storeMethod dbToCache itemType signalName check batch aouInit).errLog,
    emissions :=
      (aouLoop storeMethod dbToCache itemType signalName check batch aouInit).emissions ++
      (if anyTruthyLists
          (aouLoop storeMethod dbToCache itemType signalName check batch aouInit).errLog
        then [.errorMsgLists
          (aouLoop storeMethod dbToCache itemType signalName check batch aouInit).errLog]
        else []),
    storeCalls :=
      (aouLoop storeMethod dbToCache itemType signalName check batch aouInit).storeCalls }

/-- The items-signal emissions one batch entry contributes in
`_add_or_update_items`: none when the store applied nothing, else one signal
with the applied items in cache form (used to characterize the loop output). -/
def aouEmitOf (storeMethod : Conn → List Item → Bool → List Item × List ErrMsg)
    (dbToCache : Conn → ItemType → Item → CacheItem)
    (itemType : ItemType) (signalName : String) (check : Bool)
    (p : Conn × List Item) : List Emission :=
  if (storeMethod p.1 p.2 check).1.isEmpty then []
  else [.itemsSignal signalName p.1
    ((storeMethod p.1 p.2 check).1.map (dbToCache p.1 itemType))]

/-- The concatenation of the per-entry emission contributions over a batch. -/
def aouEmits (storeMethod : Conn → List Item → Bool → List Item × List ErrMsg)
    (dbToCache : Conn → ItemType → Item → CacheItem)
    (itemType : ItemType) (signalName : String) (check : Bool) :
    List (Conn × List Item) → List Emission
  | [] => []
  | p :: rest =>
    aouEmitOf storeMethod dbToCache itemType signalName check p ++
    aouEmits storeMethod dbToCache itemType signalName check rest

/-- Result of `_readd_items`: emissions and the trace of store calls
`(connection, items, readd=True)`. -/
structure ReaddAcc where
  emissions : List Emission
  storeCalls : List (Conn × List Item × Bool)

/-- The loop of `_readd_items` (spine_db_worker.py:178-181): call the store method
with `readd=True` for each connection — the store's return value is discarded, no
integrity check is requested and no error log exists — and unconditionally emit
the items signal with the (cache-converted) items that were passed in. -/
def readdLoop (dbToCache : Conn → ItemType → Item → CacheItem)
    (itemType : ItemType) (signalName : String) :
    List (Conn × List Item) → ReaddAcc → ReaddAcc
  | [], acc => acc
  | (c, items) :: rest, acc =>
    readdLoop dbToCache itemType signalName rest
      { emissions := acc.emissions ++
          [.itemsSignal signalName c (items.map (dbToCache c itemType))],
        storeCalls := acc.storeCalls ++ [(c, items, true)] }

/-- `SpineDBWorker._readd_items` (spine_db_worker.py:167-181). -/
def readdItems (dbToCache : Conn → ItemType → Item → CacheItem)
    (itemType : ItemType) (signalName : String)
    (batch : List (Conn × List Item)) : ReaddAcc :=
  readdLoop dbToCache itemType signalName batch { emissions := [], storeCalls := [] }

/-- Modelled from the spec: `ItemCache.remove` — "evicts; returns ids actually
present (others are no-ops, not errors)" — applied to one connection's cache
entry for every item type named in `ids` (the cache class is not among the
sources here). -/
def cacheEvict (entry : CacheEntry) (ids : TypedIds) : CacheEntry :=
  entry.map (fun p =>
    match alookup p.1 ids with
    | none => p
    | some rem => (p.1, p.2.filter (fun i => !rem.contains i)))

/-- Modelled from the spec: the manager's `uncache_items` — evict the given ids per
type from each listed connection's cache entry; a connection without a cache entry
is a no-op (the manager is not among the sources here). -/
def uncacheItems (closures : List (Conn × TypedIds))
    (cache : List (Conn × CacheEntry)) : List (Conn × CacheEntry) :=
  match closures with
  | [] => cache
  | (c, ids) :: rest =>
    match alookup c cache with
    | none => uncacheItems rest cache
    | some entry => uncacheItems rest (aset c (cacheEvict entry ids) cache)

/-- The `for db_map, ids_per_type` loop of `_remove_items`
(spine_db_worker.py:197-202): try the store removal of each connection's closure;
a `SpineDBAPIError` is recorded as a one-element message list and the loop
continues (`continue`).  The call trace records every attempt. -/
def removeLoop (storeRemove : Conn → TypedIds → Option ErrMsg) :
    List (Conn × TypedIds) → List (Conn × List ErrMsg) → List (Conn × TypedIds) →
    List (Conn × List ErrMsg) × List (Conn × TypedIds)
  | [], errLog, calls => (errLog, calls)
  | (c, ids) :: rest, errLog, calls =>
    match storeRemove c ids with
    | none => removeLoop storeRemove rest errLog (calls ++ [(c, ids)])
    | some e => removeLoop storeRemove rest (aset c [e] errLog) (calls ++ [(c, ids)])

/-- Result of `_remove_items`. -/
structure RemoveResult where
  cache : List (Conn × CacheEntry)
  errLog : List (Conn × List ErrMsg)
  storeCalls : List (Conn × TypedIds)
  emissions : List Emission

/-- `SpineDBWorker._remove_items` (spine_db_worker.py:186-205): first replace each
connection's seed ids by the store-computed cascading closure
(`db_map.cascading_ids`), then run the removal loop, emit the error log when any
message list is nonempty, and finally call `uncache_items` with the whole closure
dict — including the closures of connections whose store removal raised. -/
def removeItems (cascadingIds : Conn → TypedIds → TypedIds)
    (storeRemove : Conn → TypedIds → Option ErrMsg)
    (batch : List (Conn × TypedIds))
    (cache : List (Conn × CacheEntry)) : RemoveResult :=
  let closures := batch.map (fun p => (p.1, cascadingIds p.1 p.2))
  let r := removeLoop storeRemove closures [] []
  { cache := uncacheItems closures cache,
    errLog := r.1,
    storeCalls := r.2,
    emissions := if anyTruthyLists r.1 then [.errorMsgLists r.1] else [] }

/-- One entry of the external `get_data_for_import` result:
`(item_type, (to_add, to_update, import_error_log))`. -/
abbrev DiffEntry := ItemType × List Item × List Item × List ErrMsg

/-- Modelled from the spec: the child commands `_import_data` creates for one
connection's diff — one `AddItemsCommand` per nonempty `to_add` and one
`UpdateItemsCommand` per nonempty `to_update`, in diff order.  `applyCmd` stands
for the manager-side effect of the child's eager `redo()` (the command classes
and the manager are not among the sources here): it returns the items actually
applied, and per the spec a child that applied nothing is obsolete. -/
def childrenOf (applyCmd : Conn → ItemType → Bool → List Item → List Item)
    (c : Conn) : List DiffEntry → List ChildCmd
  | [] => []
  | (t, toAdd, toUpd, _) :: rest =>
    (if toAdd.isEmpty then [] else
      [{ itemType := t, isAdd := true, items := toAdd,
         obsolete := (applyCmd c t true toAdd).isEmpty }]) ++
    (if toUpd.isEmpty then [] else
      [{ itemType := t, isAdd := false, items := toUpd,
         obsolete := (applyCmd c t false toUpd).isEmpty }]) ++
    childrenOf applyCmd c rest

/-- The per-item-type error-log accumulation of `_import_data`
(spine_db_worker.py:266): `db_map_error_log.setdefault(db_map, []).extend(...)`
for each diff entry's validation error log. -/
def diffErrors (c : Conn) : List DiffEntry →
    List (Conn × List ErrMsg) → List (Conn × List ErrMsg)
  | [], errLog => errLog
  | (_, _, _, log) :: rest, errLog => diffErrors c rest (aextend c log errLog)

/-- The message built at spine_db_worker.py:256 when `get_data_for_import` raises. -/
def importFailureMsg (err : ErrMsg) : ErrMsg :=
  "Failed to import data: " ++ err ++
    ". Please check that your data source has the right format."

/-- Loop state of `_import_data`: the per-connection histories and the error log. -/
structure ImpAcc where
  hist : Conn → CommandHistory
  errLog : List (Conn × List ErrMsg)

/-- One iteration of the `for db_map, data in db_map_data.items()` loop of
`_import_data` (spine_db_worker.py:252-278).  The connection's diff — the result
of the external `get_data_for_import` — is part of the input (`Except.error` is
the caught `TypeError`/`ValueError` case).  The macro is pushed before the
children run and the children mutate the pushed object in place; observably the
pushed command is the completed group, so the model pushes it whole.  Only when
`child_cmds` is nonempty and every child is obsolete is the group marked obsolete
and `undo()` called on the stack. -/
def dbImportOne (applyCmd : Conn → ItemType → Bool → List Item → List Item)
    (cmdText : String) (acc : ImpAcc)
    (p : Conn × Except ErrMsg (List DiffEntry)) : ImpAcc :=
  match p.2 with
  | .error err =>
    { acc with errLog := aextend p.1 [importFailureMsg err] acc.errLog }
  | .ok diff =>
    let c := p.1
    let children := childrenOf applyCmd c diff
    let errLog := diffErrors c diff acc.errLog
    if !children.isEmpty && children.all (fun g => g.obsolete) then
      let g : GroupCmd := { text := cmdText, children := children, obsolete := true }
      { hist := updFn acc.hist c (histUndo (histPush (acc.hist c) g)), errLog := errLog }
    else
      let g : GroupCmd := { text := cmdText, children := children, obsolete := false }
      { hist := updFn acc.hist c (histPush (acc.hist c) g), errLog := errLog }

/-- The full loop of `_import_data` over the batch. -/
def dbImportLoop (applyCmd : Conn → ItemType → Bool → List Item → List Item)
    (cmdText : String) :
    List (Conn × Except ErrMsg (List DiffEntry)) → ImpAcc → ImpAcc
  | [], acc => acc
  | p :: rest, acc =>
    dbImportLoop applyCmd cmdText rest (dbImportOne applyCmd cmdText acc p)

/-- Result of `_import_data`. -/
structure ImportResult where
  hist : Conn → CommandHistory
  errLog : List (Conn × List ErrMsg)
  emissions : List Emission

/-- `SpineDBWorker._import_data` (spine_db_worker.py:249-281): run the loop, emit
the error log when any message list is nonempty, and always emit `data_imported`. -/
def dbImportData (applyCmd : Conn → ItemType → Bool → List Item → List Item)
    (cmdText : String)
    (batch : List (Conn × Except ErrMsg (List DiffEntry)))
    (hist : Conn → CommandHistory) : ImportResult :=
  let acc := dbImportLoop applyCmd cmdText batch { hist := hist, errLog := [] }
  { hist := acc.hist, errLog := acc.errLog,
    emissions :=
      (if anyTruthyLists acc.errLog then [.errorMsgLists acc.errLog] else []) ++
      [.dataImported] }

/-- The kind of an I/O failure raised by an external file operation
(`PermissionError` or `OSError`). -/
inductive IOErrKind where
  | permission
  | os
  deriving Repr, DecidableEq

/-- An exception escaping one of the export methods uncaught: the bare
`ValueError` of the dispatch, an I/O error, or a store-level error raised by an
unguarded `spinedb_api` call. -/
inductive ExpExn where
  | valueError
  | ioError (k : IOErrKind)
  | storeExn (m : ErrMsg)
  deriving Repr, DecidableEq

/-- One external destination-touching operation of an export path, used to trace
which operations a call attempted and in what order. -/
inductive ExpOp where
  | jsonWrite
  | sqliteCreate
  | sqliteImport
  | sqliteCommit
  | excelRemove
  | excelWrite
  deriving Repr, DecidableEq

/-- Outcome of an export call: the emissions, the exception that escaped (if
any), and the trace of external destination operations attempted, in order. -/
structure ExpOutcome where
  emissions : List Emission
  raised : Option ExpExn
  ops : List ExpOp
  deriving Repr, DecidableEq

/-- `os.path.split(file_path)[1]` as used by `export_to_excel`. -/
def fileNameOf (p : String) : String :=
  (p.splitOn "/").getLastD p

/-- Python `s.startswith(pre)`, computed on the character lists so that concrete
instances evaluate inside the kernel. -/
def strStartsWith (s pre : String) : Bool :=
  pre.data.isPrefixOf s.data

/-- `SpineDBWorker.export_to_json` (spine_db_worker.py:323-344): build the JSON text
(external `json.dumps` serialization, irrelevant to the outcome shape) and write
it with a plain unguarded `open(...)`/`write`; an I/O failure there propagates as
an uncaught exception, success emits `file_exported`.  `writeResult` is the
external write effect. -/
def exportToJson (writeResult : Option IOErrKind) (filePath : String) : ExpOutcome :=
  match writeResult with
  | some k => { emissions := [], raised := some (.ioError k), ops := [.jsonWrite] }
  | none => { emissions := [.fileExported filePath], raised := none, ops := [.jsonWrite] }

/-- `SpineDBWorker.export_to_sqlite` (spine_db_worker.py:307-321): return silently
when the destination URL is unavailable.  The `create_new_spine_database` call
together with the `DatabaseMapping` construction (one create step here,
`createResult`) and the `import_data` call (`importDataResult`), lines 312-314,
are NOT guarded: a failure in either propagates as an uncaught exception and the
later steps are never attempted.  Only the commit sits in the `try`: a
`SpineDBAPIError` there is reported through `caller.msg_error`, success emits
`sqlite_file_exported`. -/
def exportToSqlite (urlAvailable : Bool)
    (createResult importDataResult : Option ExpExn)
    (commitResult : Option ErrMsg) (filePath codename : String) : ExpOutcome :=
  if !urlAvailable then { emissions := [], raised := none, ops := [] }
  else
    match createResult with
    | some ex => { emissions := [], raised := some ex, ops := [.sqliteCreate] }
    | none =>
      match importDataResult with
      | some ex =>
        { emissions := [], raised := some ex, ops := [.sqliteCreate, .sqliteImport] }
      | none =>
        match commitResult with
        | some m =>
          { emissions := [.callerMsgError
              ["[SpineDBAPIError] Unable to export file <b>" ++ codename ++ "</b>: " ++ m]],
            raised := none, ops := [.sqliteCreate, .sqliteImport, .sqliteCommit] }
        | none =>
          { emissions := [.sqliteFileExported filePath], raised := none,
            ops := [.sqliteCreate, .sqliteImport, .sqliteCommit] }

/-- The guarded xlsx write of `export_to_excel` (spine_db_worker.py:355-366):
`PermissionError` and `OSError` from the external xlsx exporter are caught and
reported through `caller.msg_error`, success emits `file_exported`.  `opsBefore`
is the trace of operations already attempted before the `try`. -/
def excelWriteStep (writeResult : Option IOErrKind) (filePath : String)
    (opsBefore : List ExpOp) : ExpOutcome :=
  match writeResult with
  | some .permission =>
    { emissions := [.callerMsgError
        ["Unable to export file <b>" ++ fileNameOf filePath ++
          "</b>.<br/>Close the file in Excel and try again."]],
      raised := none, ops := opsBefore ++ [.excelWrite] }
  | some .os =>
    { emissions := [.callerMsgError
        ["[OSError] Unable to export file <b>" ++ fileNameOf filePath ++ "</b>."]],
      raised := none, ops := opsBefore ++ [.excelWrite] }
  | none =>
    { emissions := [.fileExported filePath], raised := none,
      ops := opsBefore ++ [.excelWrite] }

/-- `SpineDBWorker.export_to_excel` (spine_db_worker.py:346-368): build an
in-memory database and import the data into it (in-memory external effects with
no destination write, elided), then — BEFORE the `try` — remove the destination
file if it exists (`if os.path.exists(file_path): os.remove(file_path)`, lines
353-354).  That remove is NOT guarded: a `PermissionError`/`OSError` there
propagates uncaught and the xlsx write is never attempted.  Only then comes the
guarded xlsx write; the `finally` closes the in-memory connection (no bearing on
the outcome). -/
def exportToExcel (fileExists : Bool) (removeResult writeResult : Option IOErrKind)
    (filePath : String) : ExpOutcome :=
  if fileExists then
    match removeResult with
    | some k => { emissions := [], raised := some (.ioError k), ops := [.excelRemove] }
    | none => excelWriteStep writeResult filePath [.excelRemove]
  else excelWriteStep writeResult filePath []

/-- `SpineDBWorker._export_data` (spine_db_worker.py:296-305): dispatch on the file
filter's text; a filter matching none of the three supported destinations
raises a bare `ValueError()` that nothing catches. -/
def exportDataDispatch (fileFilter : String)
    (jsonWrite : Option IOErrKind)
    (urlAvailable : Bool) (createResult importDataResult : Option ExpExn)
    (commitResult : Option ErrMsg)
    (excelFileExists : Bool) (excelRemove excelWrite : Option IOErrKind)
    (filePath codename : String) : ExpOutcome :=
  if strStartsWith fileFilter "JSON" then exportToJson jsonWrite filePath
  else if strStartsWith fileFilter "SQLite" then
    exportToSqlite urlAvailable createResult importDataResult commitResult filePath codename
  else if strStartsWith fileFilter "Excel" then
    exportToExcel excelFileExists excelRemove excelWrite filePath
  else { emissions := [], raised := some .valueError, ops := [] }

/-! ## Helper lemmas about the dict and state primitives -/

@[simp]
theorem updFn_self {α : Type} (f : Conn → α) (c : Conn) (v : α) :
    updFn f c v c = v := by
  simp [updFn]

theorem updFn_other {α : Type} (f : Conn → α) (c : Conn) (v : α) (x : Conn)
    (h : x ≠ c) : updFn f c v x = f x := by
  simp [updFn, h]

@[simp]
theorem alookup_aset_self {κ α : Type} [DecidableEq κ] (c : κ) (v : α)
    (l : List (κ × α)) : alookup c (aset c v l) = some v := by
  induction l with
  | nil => simp [aset, alookup]
  | cons p rest ih =>
    by_cases h : p.1 = c
    · simp [aset, alookup, h]
    · simp [aset, alookup, h, ih]

theorem alookup_aset_other {κ α : Type} [DecidableEq κ] (c k : κ) (v : α)
    (l : List (κ × α)) (h : c ≠ k) : alookup c (aset k v l) = alookup c l := by
  have hk : ¬ (k = c) := fun hh => h hh.symm
  induction l with
  | nil => simp [aset, alookup, hk]
  | cons p rest ih =>
    cases p with
    | mk a b =>
      by_cases hp : a = k
      · subst hp
        simp [aset, alookup, hk]
      · by_cases hc : a = c <;> simp [aset, alookup, hp, hc, ih, h]

theorem alookup_aerase_other {κ α : Type} [DecidableEq κ] (c k : κ)
    (l : List (κ × α)) (h : c ≠ k) : alookup c (aerase k l) = alookup c l := by
  have hk : ¬ (k = c) := fun hh => h hh.symm
  induction l with
  | nil => simp [aerase]
  | cons p rest ih =>
    cases p with
    | mk a b =>
      by_cases hp : a = k
      · subst hp
        simp [aerase, alookup, hk]
      · by_cases hc : a = c <;> simp [aerase, alookup, hp, hc, ih, h]

theorem alookup_aextend_other {κ : Type} [DecidableEq κ] (c k : κ)
    (vs : List ErrMsg) (l : List (κ × List ErrMsg)) (h : c ≠ k) :
    alookup c (aextend k vs l) = alookup c l := by
  have hk : ¬ (k = c) := fun hh => h hh.symm
  induction l with
  | nil => simp [aextend, alookup, hk]
  | cons p rest ih =>
    cases p with
    | mk a b =>
      by_cases hp : a = k
      · subst hp
        simp [aextend, alookup, hk]
      · by_cases hc : a = c <;> simp [aextend, alookup, hp, hc, ih, h]

/-! ## C8 — idempotent close of the backing store handle -/

/-- **C8** — `_close_db_map` is idempotent: invoked on an already-closed handle it
is a no-op (no close call, no error, same state), so close followed by close
equals a single close, and after any close the handle is closed. -/
theorem close_db_map_idempotent (c : DBConnection) :
    (c.closed = true → closeDbMap c = c) ∧
    closeDbMap (closeDbMap c) = closeDbMap c ∧
    (closeDbMap c).closed = true := by
  cases c with
  | mk b => cases b <;> simp [closeDbMap, connClose]

/-- Witness for C8 at a concrete already-closed handle. -/
theorem close_db_map_idempotent_witness :
    closeDbMap { closed := true } = { closed := true } ∧
    closeDbMap (closeDbMap { closed := true }) = closeDbMap { closed := true } :=
  ⟨(close_db_map_idempotent { closed := true }).1 rfl,
   (close_db_map_idempotent { closed := true }).2.1⟩

/-! ## C10 — the readd path -/

theorem readdLoop_spec (d2c : Conn → ItemType → Item → CacheItem)
    (it : ItemType) (sig : String) (batch : List (Conn × List Item)) (acc : ReaddAcc) :
    readdLoop d2c it sig batch acc =
      { emissions := acc.emissions ++
          batch.map (fun p => Emission.itemsSignal sig p.1 (p.2.map (d2c p.1 it))),
        storeCalls := acc.storeCalls ++ batch.map (fun p => (p.1, p.2, true)) } := by
  induction batch generalizing acc with
  | nil => simp [readdLoop]
  | cons p rest ih => cases p with
    | mk c items => simp [readdLoop, ih]

/-- **C10** — `_readd_items` writes each connection's items to the store with the
readd flag (no integrity check, trace records `(conn, items, readd := true)`),
produces no error emission, and unconditionally emits one items signal per
connection carrying exactly the passed-in items (in their cache form), regardless
of what the store write returned (the return value is discarded). -/
theorem readd_items_unconditional_emission
    (d2c : Conn → ItemType → Item → CacheItem) (it : ItemType) (sig : String)
    (batch : List (Conn × List Item)) :
    (readdItems d2c it sig batch).emissions
        = batch.map (fun p => Emission.itemsSignal sig p.1 (p.2.map (d2c p.1 it))) ∧
    (readdItems d2c it sig batch).storeCalls
        = batch.map (fun p => (p.1, p.2, true)) ∧
    (readdItems d2c it sig batch).emissions.filter Emission.isErrorReport = [] := by
  refine ⟨?_, ?_, ?_⟩
  · simp [readdItems, readdLoop_spec]
  · simp [readdItems, readdLoop_spec]
  · simp only [readdItems, readdLoop_spec, List.nil_append]
    induction batch with
    | nil => rfl
    | cons p rest ih => simpa [Emission.isErrorReport] using ih

/-! ## C7 — export error handling -/

/-- **C7 counterexample** — not every export failure is reported as an error
message: a file filter matching no supported destination makes `_export_data`
raise a bare `ValueError` with no report emitted; an I/O failure while writing
the JSON file escapes `export_to_json` uncaught (the `open`/`write` is not
guarded); and on the Excel path a `PermissionError` from the pre-`try`
`os.remove` of the existing destination file escapes uncaught, with no report
and the xlsx write never attempted. -/
theorem export_failures_escape_unreported :
    exportDataDispatch "CSV files (*.csv)" none true none none none false none none
        "/tmp/out.csv" "db"
      = { emissions := [], raised := some .valueError, ops := [] } ∧
    exportToJson (some .permission) "/tmp/out.json"
      = { emissions := [], raised := some (.ioError .permission),
          ops := [ExpOp.jsonWrite] } ∧
    exportToExcel true (some .permission) none "/tmp/out.xlsx"
      = { emissions := [], raised := some (.ioError .permission),
          ops := [ExpOp.excelRemove] } := by
  refine ⟨by decide, rfl, rfl⟩

/-- **C7 (amended)** — on the Excel path, once the pre-`try` remove of an
existing destination file has succeeded (or no file existed), a permission or OS
failure of the xlsx write is reported through `caller.msg_error` and nothing is
raised; but a permission or OS failure of that unguarded remove itself
propagates uncaught with no report.  On the SQLite path, once the unguarded
create and import steps have succeeded, a store error at commit is reported and
nothing is raised; but a failure of the create step or of the import step
propagates uncaught with no report.  On the JSON path an I/O failure propagates
uncaught, as does an unsupported destination format (a bare `ValueError`).  In
every case each destination operation is attempted at most once (the export is
never retried). -/
theorem export_error_reporting_amended
    (jsonW : Option IOErrKind) (avail : Bool) (sqCreate sqImp : Option ExpExn)
    (commitR : Option ErrMsg) (exFileExists : Bool)
    (exRemove exWrite : Option IOErrKind) (filePath codename ff : String) :
    (exportDataDispatch ff jsonW avail sqCreate sqImp commitR exFileExists
        exRemove exWrite filePath codename).ops.Nodup ∧
    (∀ k, ∃ m, exportToExcel exFileExists none (some k) filePath
        = { emissions := [.callerMsgError [m]], raised := none,
            ops := (if exFileExists then [ExpOp.excelRemove] else [])
              ++ [ExpOp.excelWrite] }) ∧
    (∀ k, exportToExcel true (some k) exWrite filePath
        = { emissions := [], raised := some (.ioError k),
            ops := [ExpOp.excelRemove] }) ∧
    (∀ m, ∃ s, exportToSqlite true none none (some m) filePath codename
        = { emissions := [.callerMsgError [s]], raised := none,
            ops := [ExpOp.sqliteCreate, ExpOp.sqliteImport, ExpOp.sqliteCommit] }) ∧
    (∀ ex, exportToSqlite true (some ex) sqImp commitR filePath codename
        = { emissions := [], raised := some ex, ops := [ExpOp.sqliteCreate] }) ∧
    (∀ ex, exportToSqlite true none (some ex) commitR filePath codename
        = { emissions := [], raised := some ex,
            ops := [ExpOp.sqliteCreate, ExpOp.sqliteImport] }) ∧
    (∀ k, exportToJson (some k) filePath
        = { emissions := [], raised := some (.ioError k), ops := [ExpOp.jsonWrite] }) ∧
    (strStartsWith ff "JSON" = false → strStartsWith ff "SQLite" = false →
      strStartsWith ff "Excel" = false →
      exportDataDispatch ff jsonW avail sqCreate sqImp commitR exFileExists
          exRemove exWrite filePath codename
        = { emissions := [], raised := some .valueError, ops := [] }) := by
  refine ⟨?_, ?_, ?_, ?_, ?_, ?_, ?_, ?_⟩
  · unfold exportDataDispatch exportToJson exportToSqlite exportToExcel excelWriteStep
    split
    · cases jsonW <;> simp
    · split
      · cases avail with
        | false => simp
        | true =>
          cases sqCreate with
          | some ex => simp
          | none =>
            cases sqImp with
            | some ex => simp
            | none => cases commitR <;> simp
      · split
        · cases exFileExists with
          | false =>
            match exWrite with
            | none => simp
            | some .permission => simp
            | some .os => simp
          | true =>
            cases exRemove with
            | some k => simp
            | none =>
              match exWrite with
              | none => simp
              | some .permission => simp
              | some .os => simp
        · simp
  · intro k
    cases exFileExists with
    | true =>
      match k with
      | .permission => exact ⟨_, rfl⟩
      | .os => exact ⟨_, rfl⟩
    | false =>
      match k with
      | .permission => exact ⟨_, rfl⟩
      | .os => exact ⟨_, rfl⟩
  · intro k
    rfl
  · intro m
    exact ⟨_, rfl⟩
  · intro ex
    rfl
  · intro ex
    rfl
  · intro k
    rfl
  · intro h1 h2 h3
    simp [exportDataDispatch, h1, h2, h3]

/-- Witness for C7 (amended) at concrete inputs, discharging the filter
hypotheses of the unsupported-format conjunct and exhibiting the trace bound on
an Excel call with an existing destination file. -/
theorem export_error_reporting_amended_witness :
    exportDataDispatch "CSV files (*.csv)" none true none none none false none none
        "/tmp/f" "db"
      = { emissions := [], raised := some .valueError, ops := [] } ∧
    (exportDataDispatch "Excel file (*.xlsx)" none true none none none true none none
        "/tmp/f" "db").ops.Nodup :=
  ⟨(export_error_reporting_amended none true none none none false none none
      "/tmp/f" "db" "CSV files (*.csv)").2.2.2.2.2.2.2
      (by decide) (by decide) (by decide),
   (export_error_reporting_amended none true none none none true none none
      "/tmp/f" "db" "Excel file (*.xlsx)").1⟩

/-! ## C1 — obsolete import macro -/

/-- **C1 counterexample** — an import whose diff yields no rows to add and no rows
to update creates no child command, and then the guard
`if child_cmds and all(...)` is false: the pushed (empty) macro is neither marked
obsolete nor undone, so after the call it does occupy the connection's command
history. -/
theorem import_empty_diff_macro_stays_in_history :
    ((dbImportData (fun _ _ _ _ => []) "Import data"
        [(0, Except.ok [("object", [], [], [])])] (fun _ => emptyHistory)).hist 0).commands
      = [{ text := "Import data", children := [], obsolete := false }] ∧
    ((dbImportData (fun _ _ _ _ => []) "Import data"
        [(0, Except.ok [("object", [], [], [])])] (fun _ => emptyHistory)).hist 0).index
      = 1 ∧
    ((dbImportData (fun _ _ _ _ => []) "Import data"
        [(0, Except.ok [("object", [], [], [])])] (fun _ => emptyHistory)).hist 0).commands
      ≠ [] := by
  refine ⟨rfl, rfl, ?_⟩
  decide

theorem histUndo_histPush_obsolete (h : CommandHistory) (g : GroupCmd)
    (hwf : h.index ≤ h.commands.length) (hg : g.obsolete = true) :
    histUndo (histPush h g) =
      { commands := h.commands.take h.index, index := h.index, cleanIdx := h.cleanIdx } := by
  have hlen : (h.commands.take h.index).length = h.index := by
    simp [List.length_take, Nat.min_eq_left hwf]
  have hget : (h.commands.take h.index ++ [g])[h.index]? = some g := by
    have hx := List.getElem?_concat_length (h.commands.take h.index) g
    rwa [hlen] at hx
  have htake : (h.commands.take h.index ++ [g]).take h.index = h.commands.take h.index := by
    have hx := List.take_left (h.commands.take h.index) [g]
    rwa [hlen] at hx
  have hdrop : (h.commands.take h.index ++ [g]).drop (h.index + 1) = [] := by
    have hl : (h.commands.take h.index ++ [g]).length = h.index + 1 := by
      simp [hlen]
    rw [← hl, List.drop_length]
  show histUndo (CommandHistory.mk (h.commands.take h.index ++ [g]) (h.index + 1) h.cleanIdx) = _
  unfold histUndo
  simp [hget, hg, htake, hdrop]

theorem dbImportLoop_hist_other
    (applyCmd : Conn → ItemType → Bool → List Item → List Item) (cmdText : String)
    (l : List (Conn × Except ErrMsg (List DiffEntry))) (acc : ImpAcc) (c : Conn)
    (h : ∀ p ∈ l, p.1 ≠ c) :
    (dbImportLoop applyCmd cmdText l acc).hist c = acc.hist c := by
  induction l generalizing acc with
  | nil => rfl
  | cons p rest ih =>
    have hp : p.1 ≠ c := h p (List.mem_cons_self p rest)
    have hrest : ∀ q ∈ rest, q.1 ≠ c := fun q hq => h q (List.mem_cons_of_mem p hq)
    rw [dbImportLoop, ih _ hrest]
    cases p with
    | mk a d =>
      match d with
      | .error err => rfl
      | .ok diff =>
        simp only [dbImportOne]
        split <;> exact updFn_other _ _ _ _ (Ne.symm hp)

theorem dbImportLoop_append
    (applyCmd : Conn → ItemType → Bool → List Item → List Item) (cmdText : String)
    (l₁ l₂ : List (Conn × Except ErrMsg (List DiffEntry))) (acc : ImpAcc) :
    dbImportLoop applyCmd cmdText (l₁ ++ l₂) acc =
      dbImportLoop applyCmd cmdText l₂ (dbImportLoop applyCmd cmdText l₁ acc) := by
  induction l₁ generalizing acc with
  | nil => rfl
  | cons p rest ih => rw [List.cons_append, dbImportLoop, dbImportLoop, ih]

/-- **C1 (amended)** — for every `_import_data` call and every connection of the
batch whose diff produced at least one child command, all of whose child commands
ended up obsolete (nothing applied), the pushed macro is marked obsolete and
immediately undone: afterwards the connection's history holds only the commands
up to its previous position (so, pushed from the tip, it is exactly unchanged),
the position is unchanged and the clean index is unchanged.  (The original
claim's parenthetical case — a diff with no rows at all, creating no child — is
refuted by the counterexample: there the empty macro stays in history.) -/
theorem import_all_children_obsolete_macro_removed
    (applyCmd : Conn → ItemType → Bool → List Item → List Item) (cmdText : String)
    (l₁ l₂ : List (Conn × Except ErrMsg (List DiffEntry)))
    (c : Conn) (diff : List DiffEntry) (hist : Conn → CommandHistory)
    (hc₁ : ∀ p ∈ l₁, p.1 ≠ c) (hc₂ : ∀ p ∈ l₂, p.1 ≠ c)
    (hne : childrenOf applyCmd c diff ≠ [])
    (hobs : ∀ g ∈ childrenOf applyCmd c diff, g.obsolete = true)
    (hwf : (hist c).index ≤ (hist c).commands.length) :
    (dbImportData applyCmd cmdText (l₁ ++ (c, Except.ok diff) :: l₂) hist).hist c =
      { commands := (hist c).commands.take (hist c).index,
        index := (hist c).index, cleanIdx := (hist c).cleanIdx } := by
  have hmain : (dbImportData applyCmd cmdText (l₁ ++ (c, Except.ok diff) :: l₂) hist).hist c
      = (dbImportOne applyCmd cmdText (dbImportLoop applyCmd cmdText l₁
          { hist := hist, errLog := [] }) (c, Except.ok diff)).hist c := by
    show (dbImportLoop applyCmd cmdText (l₁ ++ (c, Except.ok diff) :: l₂)
        { hist := hist, errLog := [] }).hist c = _
    rw [dbImportLoop_append, dbImportLoop]
    exact dbImportLoop_hist_other applyCmd cmdText l₂ _ c hc₂
  have hprev : (dbImportLoop applyCmd cmdText l₁ { hist := hist, errLog := [] }).hist c
      = hist c := dbImportLoop_hist_other applyCmd cmdText l₁ _ c hc₁
  rw [hmain]
  simp only [dbImportOne]
  have hcond : (!(childrenOf applyCmd c diff).isEmpty
      && (childrenOf applyCmd c diff).all (fun g => g.obsolete)) = true := by
    have h1 : (childrenOf applyCmd c diff).isEmpty = false := by
      cases hchl : childrenOf applyCmd c diff with
      | nil => exact absurd hchl hne
      | cons a l => rfl
    have h2 : (childrenOf applyCmd c diff).all (fun g => g.obsolete) = true :=
      List.all_eq_true.mpr hobs
    simp [h1, h2]
  rw [if_pos hcond]
  show updFn _ c _ c = _
  rw [updFn_self, hprev]
  exact histUndo_histPush_obsolete (hist c) _ hwf rfl

/-- Witness for C1 (amended): one connection whose diff has one to-add row that the
apply oracle rejects entirely — the sole child is obsolete, the macro is undone
and the (empty) history is unchanged. -/
theorem import_all_children_obsolete_macro_removed_witness :
    (dbImportData (fun _ _ _ _ => []) "Import data"
        ([] ++ (0, Except.ok [("object", [1], [], [])]) :: []) (fun _ => emptyHistory)).hist 0 =
      { commands := [], index := 0, cleanIdx := 0 } := by
  have h := import_all_children_obsolete_macro_removed (fun _ _ _ _ => []) "Import data"
    [] [] 0 [("object", [1], [], [])] (fun _ => emptyHistory)
    (by intro p hp; cases hp) (by intro p hp; cases hp)
    (by decide) (by decide) (by decide)
  simpa using h

/-! ## C3 — commit session -/

theorem commitLoop_nil (s : Conn → Option ErrMsg) (acc : CommitAcc) :
    commitLoop s [] acc = acc := rfl

theorem commitLoop_cons_none (s : Conn → Option ErrMsg) (c : Conn) (rest : List Conn)
    (acc : CommitAcc) (hs : s c = none) :
    commitLoop s (c :: rest) acc = commitLoop s rest
      { hist := updFn acc.hist c (histSetClean (acc.hist c)),
        committed := acc.committed ++ [c], errLog := acc.errLog,
        storeCalls := acc.storeCalls ++ [c] } := by
  rw [commitLoop, hs]

theorem commitLoop_cons_some (s : Conn → Option ErrMsg) (c : Conn) (rest : List Conn)
    (acc : CommitAcc) (e : ErrMsg) (hs : s c = some e) :
    commitLoop s (c :: rest) acc = commitLoop s rest
      { hist := acc.hist, committed := acc.committed,
        errLog := aset c e acc.errLog, storeCalls := acc.storeCalls ++ [c] } := by
  rw [commitLoop, hs]

theorem commitLoop_storeCalls (s : Conn → Option ErrMsg) (l : List Conn) (acc : CommitAcc) :
    (commitLoop s l acc).storeCalls = acc.storeCalls ++ l := by
  induction l generalizing acc with
  | nil => simp [commitLoop]
  | cons c rest ih =>
    rw [commitLoop]
    cases s c <;> simp [ih]

theorem commitLoop_committed (s : Conn → Option ErrMsg) (l : List Conn) (acc : CommitAcc) :
    (commitLoop s l acc).committed = acc.committed ++ l.filter (fun c => (s c).isNone) := by
  induction l generalizing acc with
  | nil => simp [commitLoop]
  | cons c rest ih =>
    rw [commitLoop]
    cases hs : s c <;> simp [ih, hs]

theorem commitLoop_hist_other (s : Conn → Option ErrMsg) (l : List Conn) (acc : CommitAcc)
    (c : Conn) (h : c ∉ l) : (commitLoop s l acc).hist c = acc.hist c := by
  induction l generalizing acc with
  | nil => rfl
  | cons d rest ih =>
    have hd : c ≠ d := fun hh => h (hh ▸ List.mem_cons_self d rest)
    have hrest : c ∉ rest := fun hh => h (List.mem_cons_of_mem d hh)
    rw [commitLoop]
    cases s d
    · rw [ih _ hrest]
      exact updFn_other _ _ _ _ hd
    · exact ih _ hrest

theorem commitLoop_errLog_other (s : Conn → Option ErrMsg) (l : List Conn) (acc : CommitAcc)
    (c : Conn) (h : c ∉ l) :
    alookup c (commitLoop s l acc).errLog = alookup c acc.errLog := by
  induction l generalizing acc with
  | nil => rfl
  | cons d rest ih =>
    have hd : c ≠ d := fun hh => h (hh ▸ List.mem_cons_self d rest)
    have hrest : c ∉ rest := fun hh => h (List.mem_cons_of_mem d hh)
    rw [commitLoop]
    cases s d
    · exact ih _ hrest
    · rw [ih _ hrest]
      exact alookup_aset_other c d _ _ hd

theorem commitLoop_append (s : Conn → Option ErrMsg) (l₁ l₂ : List Conn) (acc : CommitAcc) :
    commitLoop s (l₁ ++ l₂) acc = commitLoop s l₂ (commitLoop s l₁ acc) := by
  induction l₁ generalizing acc with
  | nil => rfl
  | cons c rest ih =>
    rw [List.cons_append, commitLoop, commitLoop]
    cases s c <;> exact ih _

/-- **C3** — for every `_commit_session` call: every connection of the batch gets
its store commit attempted (the trace equals the batch, so failures do not stop
the rest); a connection whose commit succeeds has its history marked clean at the
current position, belongs to the committed set and is covered by exactly one
"session committed" notification (the single such emission carries the committed
set); a connection whose commit raises keeps its history unchanged (not marked
clean), has its message in the per-connection error report, and is not in the
committed set. -/
theorem commit_session_per_connection
    (storeCommit : Conn → Option ErrMsg) (batch : List Conn)
    (hist : Conn → CommandHistory) (c : Conn)
    (hnd : batch.Nodup) (hc : c ∈ batch) :
    (commitSession storeCommit batch hist).storeCalls = batch ∧
    (storeCommit c = none →
      (commitSession storeCommit batch hist).hist c = histSetClean (hist c) ∧
      c ∈ (commitSession storeCommit batch hist).committed ∧
      (commitSession storeCommit batch hist).emissions.filter Emission.isSessionCommitted
        = [Emission.sessionCommitted (commitSession storeCommit batch hist).committed]) ∧
    (∀ e, storeCommit c = some e →
      (commitSession storeCommit batch hist).hist c = hist c ∧
      alookup c (commitSession storeCommit batch hist).errLog = some e ∧
      c ∉ (commitSession storeCommit batch hist).committed) := by
  obtain ⟨l₁, l₂, rfl⟩ := List.append_of_mem hc
  have hnd' : (c :: (l₁ ++ l₂)).Nodup := List.nodup_middle.mp hnd
  have hcnot : c ∉ l₁ ++ l₂ := (List.nodup_cons.mp hnd').1
  have hc₁ : c ∉ l₁ := fun hh => hcnot (List.mem_append_left _ hh)
  have hc₂ : c ∉ l₂ := fun hh => hcnot (List.mem_append_right _ hh)
  have hloop : commitLoop storeCommit (l₁ ++ c :: l₂) (commitInit hist)
      = commitLoop storeCommit l₂
          (commitLoop storeCommit [c] (commitLoop storeCommit l₁ (commitInit hist))) := by
    rw [commitLoop_append, show c :: l₂ = [c] ++ l₂ from rfl, commitLoop_append]
  simp only [commitSession]
  refine ⟨?_, ?_, ?_⟩
  · rw [commitLoop_storeCalls]
    simp [commitInit]
  · intro hs
    have hmem : c ∈ (commitLoop storeCommit (l₁ ++ c :: l₂) (commitInit hist)).committed := by
      rw [commitLoop_committed]
      simp [hs, commitInit]
    refine ⟨?_, hmem, ?_⟩
    · rw [hloop, commitLoop_hist_other _ _ _ _ hc₂,
        commitLoop_cons_none storeCommit c [] _ hs, commitLoop_nil]
      simp only [updFn_self]
      rw [commitLoop_hist_other storeCommit l₁ (commitInit hist) c hc₁]
      rfl
    · have hne : (commitLoop storeCommit (l₁ ++ c :: l₂) (commitInit hist)).committed.isEmpty
          = false := by
        cases hcm : (commitLoop storeCommit (l₁ ++ c :: l₂) (commitInit hist)).committed with
        | nil => rw [hcm] at hmem; cases hmem
        | cons a l => rfl
      rw [commitEmissions, hne]
      cases anyTruthyStrs (commitLoop storeCommit (l₁ ++ c :: l₂) (commitInit hist)).errLog <;>
        simp [Emission.isSessionCommitted]
  · intro e hs
    refine ⟨?_, ?_, ?_⟩
    · rw [hloop, commitLoop_hist_other _ _ _ _ hc₂,
        commitLoop_cons_some storeCommit c [] _ e hs, commitLoop_nil]
      rw [commitLoop_hist_other storeCommit l₁ (commitInit hist) c hc₁]
      rfl
    · rw [hloop, commitLoop_errLog_other _ _ _ _ hc₂,
        commitLoop_cons_some storeCommit c [] _ e hs, commitLoop_nil]
      simp [alookup_aset_self]
    · rw [commitLoop_committed]
      simp [hs, commitInit, hc₁, hc₂]

/-- Witness for C3 at a concrete two-connection batch: connection 0 commits,
connection 1 fails with message "lost connection". -/
theorem commit_session_per_connection_witness :
    (commitSession (fun c => if c = 0 then none else some "lost connection") [0, 1]
        (fun _ => emptyHistory)).storeCalls = [0, 1] ∧
    (commitSession (fun c => if c = 0 then none else some "lost connection") [0, 1]
        (fun _ => emptyHistory)).hist 0 = histSetClean emptyHistory ∧
    alookup 1 (commitSession (fun c => if c = 0 then none else some "lost connection") [0, 1]
        (fun _ => emptyHistory)).errLog = some "lost connection" := by
  have h0 := commit_session_per_connection
    (fun c => if c = 0 then none else some "lost connection") [0, 1]
    (fun _ => emptyHistory) 0 (by decide) (by decide)
  have h1 := commit_session_per_connection
    (fun c => if c = 0 then none else some "lost connection") [0, 1]
    (fun _ => emptyHistory) 1 (by decide) (by decide)
  exact ⟨h0.1, (h0.2.1 (by decide)).1, (h1.2.2 "lost connection" (by decide)).2.1⟩

/-! ## C2 — remove items with cascading closure -/

/-- **C2 counterexample** — a store-level `StoreError` during removal does not
leave that connection's cached items in place: `uncache_items` receives the full
closure dict including the failed connection, so the cached id 5 is evicted even
though the store rejected the removal. -/
theorem remove_items_store_error_still_evicts_cache :
    (removeItems (fun _ ids => ids) (fun _ _ => some "commit conflict")
        [(1, [("object", [5])])] [(1, [("object", [5])])]).cache
      = [(1, [("object", [])])] ∧
    (removeItems (fun _ ids => ids) (fun _ _ => some "commit conflict")
        [(1, [("object", [5])])] [(1, [("object", [5])])]).errLog
      = [(1, ["commit conflict"])] ∧
    (removeItems (fun _ ids => ids) (fun _ _ => some "commit conflict")
        [(1, [("object", [5])])] [(1, [("object", [5])])]).cache
      ≠ [(1, [("object", [5])])] := by
  refine ⟨rfl, rfl, ?_⟩
  decide

theorem removeLoop_nil (s : Conn → TypedIds → Option ErrMsg)
    (errLog : List (Conn × List ErrMsg)) (calls : List (Conn × TypedIds)) :
    removeLoop s [] errLog calls = (errLog, calls) := rfl

theorem removeLoop_cons_none (s : Conn → TypedIds → Option ErrMsg) (c : Conn)
    (ids : TypedIds) (rest : List (Conn × TypedIds))
    (errLog : List (Conn × List ErrMsg)) (calls : List (Conn × TypedIds))
    (hs : s c ids = none) :
    removeLoop s ((c, ids) :: rest) errLog calls
      = removeLoop s rest errLog (calls ++ [(c, ids)]) := by
  rw [removeLoop, hs]

theorem removeLoop_cons_some (s : Conn → TypedIds → Option ErrMsg) (c : Conn)
    (ids : TypedIds) (rest : List (Conn × TypedIds))
    (errLog : List (Conn × List ErrMsg)) (calls : List (Conn × TypedIds))
    (e : ErrMsg) (hs : s c ids = some e) :
    removeLoop s ((c, ids) :: rest) errLog calls
      = removeLoop s rest (aset c [e] errLog) (calls ++ [(c, ids)]) := by
  rw [removeLoop, hs]

theorem removeLoop_calls (s : Conn → TypedIds → Option ErrMsg)
    (l : List (Conn × TypedIds)) (errLog : List (Conn × List ErrMsg))
    (calls : List (Conn × TypedIds)) :
    (removeLoop s l errLog calls).2 = calls ++ l := by
  induction l generalizing errLog calls with
  | nil => simp [removeLoop]
  | cons p rest ih =>
    cases p with
    | mk c ids =>
      rw [removeLoop]
      cases s c ids <;> simp [ih]

theorem removeLoop_append (s : Conn → TypedIds → Option ErrMsg)
    (l₁ l₂ : List (Conn × TypedIds)) (errLog : List (Conn × List ErrMsg))
    (calls : List (Conn × TypedIds)) :
    removeLoop s (l₁ ++ l₂) errLog calls
      = removeLoop s l₂ (removeLoop s l₁ errLog calls).1 (removeLoop s l₁ errLog calls).2 := by
  induction l₁ generalizing errLog calls with
  | nil => rfl
  | cons p rest ih =>
    cases p with
    | mk c ids =>
      rw [List.cons_append, removeLoop, removeLoop]
      cases s c ids <;> exact ih _ _

theorem removeLoop_errLog_other (s : Conn → TypedIds → Option ErrMsg)
    (l : List (Conn × TypedIds)) (errLog : List (Conn × List ErrMsg))
    (calls : List (Conn × TypedIds)) (c : Conn) (h : ∀ p ∈ l, p.1 ≠ c) :
    alookup c (removeLoop s l errLog calls).1 = alookup c errLog := by
  induction l generalizing errLog calls with
  | nil => rfl
  | cons p rest ih =>
    cases p with
    | mk a ids =>
      have ha : a ≠ c := h (a, ids) (List.mem_cons_self _ rest)
      have hrest : ∀ q ∈ rest, q.1 ≠ c := fun q hq => h q (List.mem_cons_of_mem _ hq)
      rw [removeLoop]
      cases s a ids with
      | none => exact ih _ _ hrest
      | some e =>
        rw [ih _ _ hrest]
        exact alookup_aset_other c a _ _ (Ne.symm ha)

/-- **C2 (amended)** — `_remove_items` obtains the cascading closure of the seeds
from the store per connection and attempts the store removal for every connection
of the batch (an error for one connection is recorded in the error log and does
not stop the others).  But the cache eviction is not conditional on success: the
final `uncache_items` step evicts every connection's closure from the cache in
one step, the closures of connections whose store removal raised included — the
failed connection's cached items are NOT left in place. -/
theorem remove_items_closure_evicted_and_errors_reported
    (cascadingIds : Conn → TypedIds → TypedIds)
    (storeRemove : Conn → TypedIds → Option ErrMsg)
    (batch : List (Conn × TypedIds)) (cache : List (Conn × CacheEntry)) :
    (removeItems cascadingIds storeRemove batch cache).storeCalls
        = batch.map (fun p => (p.1, cascadingIds p.1 p.2)) ∧
    (removeItems cascadingIds storeRemove batch cache).cache
        = uncacheItems (batch.map (fun p => (p.1, cascadingIds p.1 p.2))) cache ∧
    (∀ (m₁ m₂ : List (Conn × TypedIds)) (c : Conn) (ids : TypedIds) (e : ErrMsg),
      batch = m₁ ++ (c, ids) :: m₂ → (∀ p ∈ m₂, p.1 ≠ c) →
      storeRemove c (cascadingIds c ids) = some e →
      alookup c (removeItems cascadingIds storeRemove batch cache).errLog = some [e]) := by
  refine ⟨?_, rfl, ?_⟩
  · show (removeLoop storeRemove (batch.map fun p => (p.1, cascadingIds p.1 p.2)) [] []).2 = _
    rw [removeLoop_calls]
    simp
  · intro m₁ m₂ c ids e hb hm₂ hs
    subst hb
    show alookup c (removeLoop storeRemove
        ((m₁ ++ (c, ids) :: m₂).map fun p => (p.1, cascadingIds p.1 p.2)) [] []).1 = _
    rw [List.map_append, List.map_cons]
    rw [removeLoop_append]
    rw [removeLoop_cons_some _ _ _ _ _ _ e hs]
    rw [removeLoop_errLog_other]
    · exact alookup_aset_self c [e] _
    · intro q hq
      rcases List.mem_map.mp hq with ⟨p, hp, rfl⟩
      exact hm₂ p hp

/-- Witness for C2 (amended) at a concrete two-connection batch where the second
connection's removal fails. -/
theorem remove_items_closure_evicted_and_errors_reported_witness :
    alookup 1 (removeItems (fun _ ids => ids)
        (fun c _ => if c = 1 then some "commit conflict" else none)
        [(0, [("object", [3])]), (1, [("object", [5])])]
        [(1, [("object", [5])])]).errLog = some ["commit conflict"] :=
  (remove_items_closure_evicted_and_errors_reported (fun _ ids => ids)
      (fun c _ => if c = 1 then some "commit conflict" else none)
      [(0, [("object", [3])]), (1, [("object", [5])])]
      [(1, [("object", [5])])]).2.2
    [(0, [("object", [3])])] [] 1 [("object", [5])] "commit conflict" rfl
    (by intro p hp; cases hp) (by decide)

/-! ## C4 and C9 — rollback session -/

theorem rollbackLoop_nil (s : Conn → Option ErrMsg) (acc : RbAcc) :
    rollbackLoop s [] acc = (acc, false) := rfl

theorem rollbackLoop_cons_some (s : Conn → Option ErrMsg) (c : Conn) (rest : List Conn)
    (acc : RbAcc) (e : ErrMsg) (hs : s c = some e) :
    rollbackLoop s (c :: rest) acc = rollbackLoop s rest
      { storeRolledBack := acc.storeRolledBack, hist := acc.hist, cache := acc.cache,
        rolled := acc.rolled, errLog := aset c e acc.errLog } := by
  rw [rollbackLoop, hs]

theorem rollbackLoop_cons_none_hit (s : Conn → Option ErrMsg) (c : Conn) (rest : List Conn)
    (acc : RbAcc) (hs : s c = none) (hk : ahasKey c acc.cache = true) :
    rollbackLoop s (c :: rest) acc = rollbackLoop s rest
      { storeRolledBack := updFn acc.storeRolledBack c true,
        hist := updFn acc.hist c emptyHistory,
        cache := aerase c acc.cache,
        rolled := acc.rolled ++ [c], errLog := acc.errLog } := by
  simp only [rollbackLoop, hs]
  simp [hk]

theorem rollbackLoop_cons_none_miss (s : Conn → Option ErrMsg) (c : Conn) (rest : List Conn)
    (acc : RbAcc) (hs : s c = none) (hk : ahasKey c acc.cache = false) :
    rollbackLoop s (c :: rest) acc =
      ({ storeRolledBack := updFn acc.storeRolledBack c true,
         hist := updFn acc.hist c emptyHistory,
         cache := acc.cache,
         rolled := acc.rolled ++ [c], errLog := acc.errLog }, true) := by
  simp only [rollbackLoop, hs]
  simp [hk]

theorem rollbackLoop_other (s : Conn → Option ErrMsg) (l : List Conn) (acc : RbAcc)
    (d : Conn) (h : d ∉ l) :
    (rollbackLoop s l acc).1.storeRolledBack d = acc.storeRolledBack d ∧
    (rollbackLoop s l acc).1.hist d = acc.hist d ∧
    alookup d (rollbackLoop s l acc).1.cache = alookup d acc.cache ∧
    alookup d (rollbackLoop s l acc).1.errLog = alookup d acc.errLog ∧
    ((d ∈ (rollbackLoop s l acc).1.rolled) ↔ d ∈ acc.rolled) := by
  induction l generalizing acc with
  | nil => simp [rollbackLoop_nil]
  | cons c rest ih =>
    have hd : d ≠ c := fun hh => h (hh ▸ List.mem_cons_self c rest)
    have hrest : d ∉ rest := fun hh => h (List.mem_cons_of_mem c hh)
    cases hs : s c with
    | some e =>
      rw [rollbackLoop_cons_some s c rest acc e hs]
      have hx := ih
        { storeRolledBack := acc.storeRolledBack, hist := acc.hist, cache := acc.cache,
          rolled := acc.rolled, errLog := aset c e acc.errLog } hrest
      refine ⟨hx.1, hx.2.1, hx.2.2.1, ?_, hx.2.2.2.2⟩
      rw [hx.2.2.2.1]
      exact alookup_aset_other d c _ _ hd
    | none =>
      cases hk : ahasKey c acc.cache with
      | true =>
        rw [rollbackLoop_cons_none_hit s c rest acc hs hk]
        have hx := ih
          { storeRolledBack := updFn acc.storeRolledBack c true,
            hist := updFn acc.hist c emptyHistory, cache := aerase c acc.cache,
            rolled := acc.rolled ++ [c], errLog := acc.errLog } hrest
        refine ⟨?_, ?_, ?_, hx.2.2.2.1, ?_⟩
        · rw [hx.1]; exact updFn_other _ _ _ _ hd
        · rw [hx.2.1]; exact updFn_other _ _ _ _ hd
        · rw [hx.2.2.1]; exact alookup_aerase_other d c _ hd
        · rw [hx.2.2.2.2]; simp [hd]
      | false =>
        rw [rollbackLoop_cons_none_miss s c rest acc hs hk]
        refine ⟨updFn_other _ _ _ _ hd, updFn_other _ _ _ _ hd, rfl, rfl, ?_⟩
        simp [hd]

theorem alookup_eq_none_of_not_mem_keys {κ α : Type} [DecidableEq κ] (c : κ)
    (l : List (κ × α)) (h : c ∉ l.map Prod.fst) : alookup c l = none := by
  induction l with
  | nil => rfl
  | cons p rest ih =>
    have hp : ¬ (p.1 = c) := fun hh => h (by simp [hh])
    have hrest : c ∉ rest.map Prod.fst := fun hh => h (by simp [hh])
    simp [alookup, hp, ih hrest]

theorem mem_keys_aerase {κ α : Type} [DecidableEq κ] (a c : κ) (l : List (κ × α))
    (h : a ∈ (aerase c l).map Prod.fst) : a ∈ l.map Prod.fst := by
  induction l with
  | nil => simp [aerase] at h
  | cons p rest ih =>
    cases p with
    | mk k w =>
      by_cases hk : k = c
      · simp only [aerase, if_pos hk] at h
        simp only [List.map_cons]
        exact List.mem_cons_of_mem _ h
      · simp only [aerase, if_neg hk, List.map_cons] at h ⊢
        rcases List.mem_cons.mp h with h1 | h2
        · exact List.mem_cons.mpr (Or.inl h1)
        · exact List.mem_cons.mpr (Or.inr (ih h2))

theorem keysNodup_aerase {κ α : Type} [DecidableEq κ] (c : κ) (l : List (κ × α))
    (h : (l.map Prod.fst).Nodup) : ((aerase c l).map Prod.fst).Nodup := by
  induction l with
  | nil => exact h
  | cons p rest ih =>
    cases p with
    | mk k w =>
      rw [List.map_cons] at h
      have h1 : k ∉ rest.map Prod.fst := (List.nodup_cons.mp h).1
      have h2 : (rest.map Prod.fst).Nodup := (List.nodup_cons.mp h).2
      by_cases hk : k = c
      · simp only [aerase, if_pos hk]
        exact h2
      · simp only [aerase, if_neg hk, List.map_cons]
        exact List.nodup_cons.mpr
          ⟨fun hh => h1 (mem_keys_aerase k c rest hh), ih h2⟩

theorem ahasKey_aerase_self {κ α : Type} [DecidableEq κ] (c : κ) (l : List (κ × α))
    (h : (l.map Prod.fst).Nodup) : ahasKey c (aerase c l) = false := by
  induction l with
  | nil => rfl
  | cons p rest ih =>
    cases p with
    | mk k w =>
      rw [List.map_cons] at h
      have h1 : k ∉ rest.map Prod.fst := (List.nodup_cons.mp h).1
      have h2 : (rest.map Prod.fst).Nodup := (List.nodup_cons.mp h).2
      by_cases hk : k = c
      · subst hk
        simp only [aerase, if_pos rfl]
        show (alookup k rest).isSome = false
        rw [alookup_eq_none_of_not_mem_keys k rest h1]
        rfl
      · simp only [aerase, if_neg hk]
        show (alookup c ((k, w) :: aerase c rest)).isSome = false
        rw [alookup, if_neg hk]
        exact ih h2

/-- The key facts about a rollback loop that completes without a `KeyError`: the
loop never raises when every connection whose store rollback succeeds holds a
cache entry, and then each connection's outcome is as `_rollback_session`'s loop
body prescribes. -/
theorem rollbackLoop_ok (store : Conn → Option ErrMsg) (l : List Conn) (acc : RbAcc)
    (hnd : l.Nodup) (hck : (acc.cache.map Prod.fst).Nodup)
    (hkeys : ∀ c ∈ l, store c = none → ahasKey c acc.cache = true) :
    (rollbackLoop store l acc).2 = false ∧
    ∀ c ∈ l,
      (store c = none →
        (rollbackLoop store l acc).1.storeRolledBack c = true ∧
        (rollbackLoop store l acc).1.hist c = emptyHistory ∧
        ahasKey c (rollbackLoop store l acc).1.cache = false ∧
        c ∈ (rollbackLoop store l acc).1.rolled) ∧
      (∀ e, store c = some e →
        (rollbackLoop store l acc).1.hist c = acc.hist c ∧
        alookup c (rollbackLoop store l acc).1.cache = alookup c acc.cache ∧
        alookup c (rollbackLoop store l acc).1.errLog = some e ∧
        ((c ∈ (rollbackLoop store l acc).1.rolled) ↔ c ∈ acc.rolled)) := by
  induction l generalizing acc with
  | nil => exact ⟨rfl, fun c hc => absurd hc (List.not_mem_nil c)⟩
  | cons d rest ih =>
    have hdrest : d ∉ rest := (List.nodup_cons.mp hnd).1
    have hndrest : rest.Nodup := (List.nodup_cons.mp hnd).2
    cases hs : store d with
    | some e =>
      rw [rollbackLoop_cons_some store d rest acc e hs]
      have hk₂ : ((aset d e acc.errLog, acc).2.cache.map Prod.fst).Nodup := hck
      have hihx := ih
        { storeRolledBack := acc.storeRolledBack, hist := acc.hist,
          cache := acc.cache, rolled := acc.rolled, errLog := aset d e acc.errLog }
        hndrest hck (fun c hc h0 => hkeys c (List.mem_cons_of_mem _ hc) h0)
      refine ⟨hihx.1, ?_⟩
      intro c hc
      rcases List.mem_cons.mp hc with rfl | hcr
      · refine ⟨fun h0 => absurd (hs ▸ h0) (by simp), ?_⟩
        intro e' he'
        have hee : e = e' := Option.some.inj ((hs.symm).trans he')
        subst hee
        have hoth := rollbackLoop_other store rest
          { storeRolledBack := acc.storeRolledBack, hist := acc.hist,
            cache := acc.cache, rolled := acc.rolled, errLog := aset c e acc.errLog }
          c hdrest
        refine ⟨hoth.2.1, hoth.2.2.1, ?_, hoth.2.2.2.2⟩
        rw [hoth.2.2.2.1]
        exact alookup_aset_self c e _
      · have hcd : c ≠ d := fun hh => hdrest (hh ▸ hcr)
        have hx := hihx.2 c hcr
        refine ⟨fun h0 => hx.1 h0, ?_⟩
        intro e' he'
        have hy := hx.2 e' he'
        exact ⟨hy.1, hy.2.1, hy.2.2.1, hy.2.2.2⟩
    | none =>
      have hkd : ahasKey d acc.cache = true :=
        hkeys d (List.mem_cons_self d rest) hs
      rw [rollbackLoop_cons_none_hit store d rest acc hs hkd]
      have hck₃ : ((aerase d acc.cache).map Prod.fst).Nodup := keysNodup_aerase d _ hck
      have hkeys₃ : ∀ c ∈ rest, store c = none → ahasKey c (aerase d acc.cache) = true := by
        intro c hc h0
        have hcd : c ≠ d := fun hh => hdrest (hh ▸ hc)
        show (alookup c (aerase d acc.cache)).isSome = true
        rw [alookup_aerase_other c d _ hcd]
        exact hkeys c (List.mem_cons_of_mem _ hc) h0
      have hihx := ih
        { storeRolledBack := updFn acc.storeRolledBack d true,
          hist := updFn acc.hist d emptyHistory,
          cache := aerase d acc.cache,
          rolled := acc.rolled ++ [d], errLog := acc.errLog }
        hndrest hck₃ hkeys₃
      refine ⟨hihx.1, ?_⟩
      intro c hc
      rcases List.mem_cons.mp hc with rfl | hcr
      · constructor
        · intro h0
          have hoth := rollbackLoop_other store rest
            { storeRolledBack := updFn acc.storeRolledBack c true,
              hist := updFn acc.hist c emptyHistory, cache := aerase c acc.cache,
              rolled := acc.rolled ++ [c], errLog := acc.errLog }
            c hdrest
          refine ⟨?_, ?_, ?_, ?_⟩
          · rw [hoth.1]; exact updFn_self _ _ _
          · rw [hoth.2.1]; exact updFn_self _ _ _
          · show (alookup c (rollbackLoop store rest
              { storeRolledBack := updFn acc.storeRolledBack c true,
                hist := updFn acc.hist c emptyHistory, cache := aerase c acc.cache,
                rolled := acc.rolled ++ [c], errLog := acc.errLog }).1.cache).isSome = false
            rw [hoth.2.2.1]
            exact ahasKey_aerase_self c acc.cache hck
          · exact hoth.2.2.2.2.mpr (List.mem_append_right _ (List.mem_singleton.mpr rfl))
        · intro e' he'
          exact absurd (hs ▸ he') (by simp)
      · have hcd : c ≠ d := fun hh => hdrest (hh ▸ hcr)
        have hx := hihx.2 c hcr
        constructor
        · exact fun h0 => hx.1 h0
        · intro e' he'
          have hy := hx.2 e' he'
          refine ⟨?_, ?_, hy.2.2.1, ?_⟩
          · rw [hy.1]; exact updFn_other _ _ _ _ hcd
          · rw [hy.2.1]; exact alookup_aerase_other c d _ hcd
          · rw [hy.2.2.2]; simp [hcd]

/-- **C4** — for every `_rollback_session` call over a batch of distinct
connections each of which (when its store rollback succeeds) holds a cache entry:
no `KeyError` escapes; a connection whose store rollback succeeds ends with an
empty command history, no cache entry, its store rolled back, and is covered by
the single "session rolled back" notification (which carries the rolled-back
set); a store-level failure for one connection is recorded in the per-connection
error map, leaves that connection's history and cache entry untouched, excludes
it from the rolled-back set — and, the batch loop continuing, does not prevent
the other connections from being rolled back. -/
theorem rollback_session_per_connection
    (store : Conn → Option ErrMsg) (batch : List Conn)
    (hist : Conn → CommandHistory) (cache : List (Conn × CacheEntry)) (c : Conn)
    (hnd : batch.Nodup) (hck : (cache.map Prod.fst).Nodup)
    (hkeys : ∀ d ∈ batch, store d = none → ahasKey d cache = true)
    (hc : c ∈ batch) :
    (rollbackSession store batch hist cache).raisedKeyError = false ∧
    (store c = none →
      (rollbackSession store batch hist cache).state.hist c = emptyHistory ∧
      ahasKey c (rollbackSession store batch hist cache).state.cache = false ∧
      (rollbackSession store batch hist cache).state.storeRolledBack c = true ∧
      c ∈ (rollbackSession store batch hist cache).state.rolled ∧
      (rollbackSession store batch hist cache).emissions.filter Emission.isSessionRolledBack
        = [Emission.sessionRolledBack (rollbackSession store batch hist cache).state.rolled]) ∧
    (∀ e, store c = some e →
      alookup c (rollbackSession store batch hist cache).state.errLog = some e ∧
      (rollbackSession store batch hist cache).state.hist c = hist c ∧
      alookup c (rollbackSession store batch hist cache).state.cache = alookup c cache ∧
      c ∉ (rollbackSession store batch hist cache).state.rolled) := by
  have hok := rollbackLoop_ok store batch (rbInit hist cache) hnd hck hkeys
  have hsess : rollbackSession store batch hist cache =
      { state := (rollbackLoop store batch (rbInit hist cache)).1,
        emissions := rollbackEmissions (rollbackLoop store batch (rbInit hist cache)).1,
        raisedKeyError := false } := by
    rw [rollbackSession, hok.1]
    simp
  refine ⟨by rw [hsess], ?_, ?_⟩
  · intro h0
    have hx := (hok.2 c hc).1 h0
    have hmem := hx.2.2.2
    refine ⟨by rw [hsess]; exact hx.2.1, by rw [hsess]; exact hx.2.2.1,
      by rw [hsess]; exact hx.1, by rw [hsess]; exact hmem, ?_⟩
    rw [hsess]
    show (rollbackEmissions _).filter Emission.isSessionRolledBack = _
    have hne : (rollbackLoop store batch (rbInit hist cache)).1.rolled.isEmpty = false := by
      cases hcm : (rollbackLoop store batch (rbInit hist cache)).1.rolled with
      | nil => rw [hcm] at hmem; cases hmem
      | cons a l => rfl
    rw [rollbackEmissions, hne]
    cases anyTruthyStrs (rollbackLoop store batch (rbInit hist cache)).1.errLog <;>
      simp [Emission.isSessionRolledBack]
  · intro e he
    have hy := (hok.2 c hc).2 e he
    refine ⟨by rw [hsess]; exact hy.2.2.1, by rw [hsess]; exact hy.1,
      by rw [hsess]; exact hy.2.1, ?_⟩
    rw [hsess]
    intro hmem
    exact (List.not_mem_nil c) (hy.2.2.2.mp hmem)

/-- Witness for C4: connection 0 rolls back (with a cache entry present),
connection 1 fails at the store level. -/
theorem rollback_session_per_connection_witness :
    (rollbackSession (fun c => if c = 0 then none else some "refused") [0, 1]
        (fun _ => emptyHistory) [(0, [("object", [7])])]).raisedKeyError = false ∧
    (rollbackSession (fun c => if c = 0 then none else some "refused") [0, 1]
        (fun _ => emptyHistory) [(0, [("object", [7])])]).state.hist 0 = emptyHistory ∧
    alookup 1 (rollbackSession (fun c => if c = 0 then none else some "refused") [0, 1]
        (fun _ => emptyHistory) [(0, [("object", [7])])]).state.errLog = some "refused" := by
  have h0 := rollback_session_per_connection
    (fun c => if c = 0 then none else some "refused") [0, 1]
    (fun _ => emptyHistory) [(0, [("object", [7])])] 0
    (by decide) (by decide) (by decide) (by decide)
  have h1 := rollback_session_per_connection
    (fun c => if c = 0 then none else some "refused") [0, 1]
    (fun _ => emptyHistory) [(0, [("object", [7])])] 1
    (by decide) (by decide) (by decide) (by decide)
  exact ⟨h0.1, (h0.2.1 (by decide)).1, (h1.2.2 "refused" (by decide)).1⟩

theorem rollbackLoop_append (s : Conn → Option ErrMsg) (l₁ l₂ : List Conn) (acc : RbAcc) :
    rollbackLoop s (l₁ ++ l₂) acc =
      if (rollbackLoop s l₁ acc).2 then rollbackLoop s l₁ acc
      else rollbackLoop s l₂ (rollbackLoop s l₁ acc).1 := by
  induction l₁ generalizing acc with
  | nil => simp [rollbackLoop_nil]
  | cons c rest ih =>
    cases hs : s c with
    | some e =>
      rw [List.cons_append, rollbackLoop_cons_some s c (rest ++ l₂) acc e hs,
          rollbackLoop_cons_some s c rest acc e hs, ih]
    | none =>
      cases hk : ahasKey c acc.cache with
      | true =>
        rw [List.cons_append, rollbackLoop_cons_none_hit s c (rest ++ l₂) acc hs hk,
            rollbackLoop_cons_none_hit s c rest acc hs hk, ih]
      | false =>
        rw [List.cons_append, rollbackLoop_cons_none_miss s c (rest ++ l₂) acc hs hk,
            rollbackLoop_cons_none_miss s c rest acc hs hk]
        simp

/-- **C9** — when `_rollback_session` reaches a connection `c` whose store
rollback succeeds but which has no cache entry at that point, the `del` on the
manager's cache dict raises a `KeyError` that the `except SpineDBAPIError` clause
does not catch: the store rollback and the history clear for `c` have already
taken effect, the cache is untouched at the `del`, the exception escapes the
loop, the connections after `c` in the batch are not rolled back, and no
"session rolled back" (and no error) notification is emitted for any
connection. -/
theorem rollback_session_missing_cache_key_error
    (store : Conn → Option ErrMsg) (l₁ l₂ : List Conn) (c : Conn)
    (hist : Conn → CommandHistory) (cache : List (Conn × CacheEntry)) (s₁ : RbAcc)
    (h₁ : rollbackLoop store l₁ (rbInit hist cache) = (s₁, false))
    (hs : store c = none)
    (hkey : ahasKey c s₁.cache = false) :
    (rollbackSession store (l₁ ++ c :: l₂) hist cache).raisedKeyError = true ∧
    (rollbackSession store (l₁ ++ c :: l₂) hist cache).emissions = [] ∧
    (rollbackSession store (l₁ ++ c :: l₂) hist cache).state.storeRolledBack c = true ∧
    (rollbackSession store (l₁ ++ c :: l₂) hist cache).state.hist c = emptyHistory ∧
    (rollbackSession store (l₁ ++ c :: l₂) hist cache).state.cache = s₁.cache ∧
    (rollbackSession store (l₁ ++ c :: l₂) hist cache).state.rolled = s₁.rolled ++ [c] ∧
    (∀ d, d ≠ c → d ∉ l₁ →
      (rollbackSession store (l₁ ++ c :: l₂) hist cache).state.storeRolledBack d = false ∧
      (rollbackSession store (l₁ ++ c :: l₂) hist cache).state.hist d = hist d) := by
  have hloop : rollbackLoop store (l₁ ++ c :: l₂) (rbInit hist cache)
      = ({ storeRolledBack := updFn s₁.storeRolledBack c true,
           hist := updFn s₁.hist c emptyHistory,
           cache := s₁.cache, rolled := s₁.rolled ++ [c], errLog := s₁.errLog }, true) := by
    rw [rollbackLoop_append, h₁]
    show rollbackLoop store (c :: l₂) s₁ = _
    rw [rollbackLoop_cons_none_miss store c l₂ s₁ hs hkey]
  have hsess : rollbackSession store (l₁ ++ c :: l₂) hist cache =
      { state := { storeRolledBack := updFn s₁.storeRolledBack c true,
                   hist := updFn s₁.hist c emptyHistory,
                   cache := s₁.cache, rolled := s₁.rolled ++ [c], errLog := s₁.errLog },
        emissions := [], raisedKeyError := true } := by
    rw [rollbackSession, hloop]
    simp
  have hfst : (rollbackLoop store l₁ (rbInit hist cache)).1 = s₁ := by rw [h₁]
  refine ⟨by rw [hsess], by rw [hsess], by simp [hsess], by simp [hsess],
    by rw [hsess], by rw [hsess], ?_⟩
  intro d hdc hdl1
  have hoth := rollbackLoop_other store l₁ (rbInit hist cache) d hdl1
  rw [hfst] at hoth
  constructor
  · simp only [hsess]
    rw [updFn_other _ _ _ _ hdc]
    exact hoth.1
  · simp only [hsess]
    rw [updFn_other _ _ _ _ hdc]
    exact hoth.2.1

/-- Witness for C9: a two-connection batch with an empty cache — the first
connection's successful store rollback is followed by the uncaught `KeyError`,
so nothing is emitted and the second connection is left untouched. -/
theorem rollback_session_missing_cache_key_error_witness :
    (rollbackSession (fun _ => none) ([] ++ 0 :: [1]) (fun _ => emptyHistory)
        []).raisedKeyError = true ∧
    (rollbackSession (fun _ => none) ([] ++ 0 :: [1]) (fun _ => emptyHistory)
        []).emissions = [] ∧
    (rollbackSession (fun _ => none) ([] ++ 0 :: [1]) (fun _ => emptyHistory)
        []).state.storeRolledBack 1 = false := by
  have h := rollback_session_missing_cache_key_error (fun _ => none) [] [1] 0
    (fun _ => emptyHistory) [] (rbInit (fun _ => emptyHistory) []) rfl rfl rfl
  exact ⟨h.1, h.2.1, (h.2.2.2.2.2.2 1 (by decide) (by simp)).1⟩

/-! ## C5 and C6 — add or update items -/

theorem aouLoop_cons (sm : Conn → List Item → Bool → List Item × List ErrMsg)
    (d2c : Conn → ItemType → Item → CacheItem) (it : ItemType) (sig : String)
    (chk : Bool) (c : Conn) (items : List Item) (rest : List (Conn × List Item))
    (acc : AouAcc) :
    aouLoop sm d2c it sig chk ((c, items) :: rest) acc
      = aouLoop sm d2c it sig chk rest
        { errLog := if (sm c items chk).2.isEmpty then acc.errLog
            else aset c (sm c items chk).2 acc.errLog,
          emissions := if (sm c items chk).1.isEmpty then acc.emissions
            else acc.emissions ++
              [.itemsSignal sig c ((sm c items chk).1.map (d2c c it))],
          storeCalls := acc.storeCalls ++ [(c, items, chk)] } := rfl

theorem aouLoop_storeCalls (sm : Conn → List Item → Bool → List Item × List ErrMsg)
    (d2c : Conn → ItemType → Item → CacheItem) (it : ItemType) (sig : String)
    (chk : Bool) (l : List (Conn × List Item)) (acc : AouAcc) :
    (aouLoop sm d2c it sig chk l acc).storeCalls
      = acc.storeCalls ++ l.map (fun p => (p.1, p.2, chk)) := by
  induction l generalizing acc with
  | nil => simp [aouLoop]
  | cons p rest ih =>
    cases p with
    | mk c items =>
      rw [aouLoop_cons, ih]
      simp

theorem aouLoop_emissions (sm : Conn → List Item → Bool → List Item × List ErrMsg)
    (d2c : Conn → ItemType → Item → CacheItem) (it : ItemType) (sig : String)
    (chk : Bool) (l : List (Conn × List Item)) (acc : AouAcc) :
    (aouLoop sm d2c it sig chk l acc).emissions
      = acc.emissions ++ aouEmits sm d2c it sig chk l := by
  induction l generalizing acc with
  | nil => simp [aouLoop, aouEmits]
  | cons p rest ih =>
    cases p with
    | mk c items =>
      rw [aouLoop_cons, ih, aouEmits]
      by_cases he : (sm c items chk).1.isEmpty
      · simp [aouEmitOf, he]
      · simp [aouEmitOf, he]

theorem aouLoop_errLog_other (sm : Conn → List Item → Bool → List Item × List ErrMsg)
    (d2c : Conn → ItemType → Item → CacheItem) (it : ItemType) (sig : String)
    (chk : Bool) (l : List (Conn × List Item)) (acc : AouAcc) (b : Conn)
    (h : ∀ p ∈ l, p.1 ≠ b) :
    alookup b (aouLoop sm d2c it sig chk l acc).errLog = alookup b acc.errLog := by
  induction l generalizing acc with
  | nil => rfl
  | cons p rest ih =>
    cases p with
    | mk c items =>
      have hc : c ≠ b := h (c, items) (List.mem_cons_self _ _)
      have hrest : ∀ q ∈ rest, q.1 ≠ b := fun q hq => h q (List.mem_cons_of_mem _ hq)
      rw [aouLoop_cons, ih _ hrest]
      by_cases he : (sm c items chk).2.isEmpty
      · simp [he]
      · simp [he, alookup_aset_other b c _ _ (Ne.symm hc)]

theorem aouLoop_append (sm : Conn → List Item → Bool → List Item × List ErrMsg)
    (d2c : Conn → ItemType → Item → CacheItem) (it : ItemType) (sig : String)
    (chk : Bool) (l₁ l₂ : List (Conn × List Item)) (acc : AouAcc) :
    aouLoop sm d2c it sig chk (l₁ ++ l₂) acc
      = aouLoop sm d2c it sig chk l₂ (aouLoop sm d2c it sig chk l₁ acc) := by
  induction l₁ generalizing acc with
  | nil => rfl
  | cons p rest ih =>
    cases p with
    | mk c items => rw [List.cons_append, aouLoop_cons, aouLoop_cons, ih]

theorem aouEmits_append (sm : Conn → List Item → Bool → List Item × List ErrMsg)
    (d2c : Conn → ItemType → Item → CacheItem) (it : ItemType) (sig : String)
    (chk : Bool) (l₁ l₂ : List (Conn × List Item)) :
    aouEmits sm d2c it sig chk (l₁ ++ l₂)
      = aouEmits sm d2c it sig chk l₁ ++ aouEmits sm d2c it sig chk l₂ := by
  induction l₁ with
  | nil => rfl
  | cons p rest ih => rw [List.cons_append, aouEmits, aouEmits, ih, List.append_assoc]

theorem aouEmits_filter_other (sm : Conn → List Item → Bool → List Item × List ErrMsg)
    (d2c : Conn → ItemType → Item → CacheItem) (it : ItemType) (sig : String)
    (chk : Bool) (b : Conn) (l : List (Conn × List Item)) (h : ∀ p ∈ l, p.1 ≠ b) :
    (aouEmits sm d2c it sig chk l).filter (Emission.isItemsSignalFor b) = [] := by
  induction l with
  | nil => rfl
  | cons p rest ih =>
    have hp : p.1 ≠ b := h p (List.mem_cons_self _ _)
    have hrest : ∀ q ∈ rest, q.1 ≠ b := fun q hq => h q (List.mem_cons_of_mem _ hq)
    rw [aouEmits, List.filter_append, ih hrest]
    by_cases he : (sm p.1 p.2 chk).1.isEmpty
    · simp [aouEmitOf, he]
    · simp [aouEmitOf, he, Emission.isItemsSignalFor, hp]

theorem aouLoop_single_errLog (sm : Conn → List Item → Bool → List Item × List ErrMsg)
    (d2c : Conn → ItemType → Item → CacheItem) (it : ItemType) (sig : String)
    (chk : Bool) (b : Conn) (itemsB : List Item) (acc : AouAcc) :
    (aouLoop sm d2c it sig chk [(b, itemsB)] acc).errLog
      = if (sm b itemsB chk).2.isEmpty then acc.errLog
        else aset b (sm b itemsB chk).2 acc.errLog := rfl

theorem errPart_filter_signal (b : Conn) (cond : Bool) (x : List (Conn × List ErrMsg)) :
    ((if cond then [Emission.errorMsgLists x] else []).filter
      (Emission.isItemsSignalFor b)) = [] := by
  cases cond <;> simp [Emission.isItemsSignalFor]

theorem aouCalls_filter_other (chk : Bool) (b : Conn) (l : List (Conn × List Item))
    (h : ∀ p ∈ l, p.1 ≠ b) :
    ((l.map (fun p => (p.1, p.2, chk))).filter (fun q => q.1 == b)) = [] := by
  induction l with
  | nil => rfl
  | cons p rest ih =>
    have hp : p.1 ≠ b := h p (List.mem_cons_self _ _)
    have hrest : ∀ q ∈ rest, q.1 ≠ b := fun q hq => h q (List.mem_cons_of_mem _ hq)
    simp [List.filter_cons, hp, ih hrest]

/-- **C5** — multi-connection isolation of `_add_or_update_items`: for a batch
containing connection `b`'s entry among entries of other connections, the items
signals emitted for `b`, `b`'s entry in the final error log, and the store call
made for `b` are exactly those of the batch containing `b`'s entry alone — an
error produced for another connection never changes what is written, cached or
announced for `b`. -/
theorem add_or_update_multi_connection_isolation
    (sm : Conn → List Item → Bool → List Item × List ErrMsg)
    (d2c : Conn → ItemType → Item → CacheItem) (it : ItemType) (sig : String)
    (chk : Bool) (pre post : List (Conn × List Item)) (b : Conn) (itemsB : List Item)
    (hpre : ∀ p ∈ pre, p.1 ≠ b) (hpost : ∀ p ∈ post, p.1 ≠ b) :
    (addOrUpdateItems sm d2c it sig chk (pre ++ (b, itemsB) :: post)).emissions.filter
        (Emission.isItemsSignalFor b)
      = (addOrUpdateItems sm d2c it sig chk [(b, itemsB)]).emissions.filter
        (Emission.isItemsSignalFor b) ∧
    alookup b (addOrUpdateItems sm d2c it sig chk (pre ++ (b, itemsB) :: post)).errLog
      = alookup b (addOrUpdateItems sm d2c it sig chk [(b, itemsB)]).errLog ∧
    (addOrUpdateItems sm d2c it sig chk (pre ++ (b, itemsB) :: post)).storeCalls.filter
        (fun q => q.1 == b)
      = (addOrUpdateItems sm d2c it sig chk [(b, itemsB)]).storeCalls.filter
        (fun q => q.1 == b) := by
  refine ⟨?_, ?_, ?_⟩
  · show ((aouLoop sm d2c it sig chk (pre ++ (b, itemsB) :: post) aouInit).emissions ++ _).filter
        (Emission.isItemsSignalFor b)
      = ((aouLoop sm d2c it sig chk [(b, itemsB)] aouInit).emissions ++ _).filter
        (Emission.isItemsSignalFor b)
    rw [List.filter_append, List.filter_append]
    rw [aouLoop_emissions, aouLoop_emissions]
    rw [errPart_filter_signal, errPart_filter_signal]
    show ((aouEmits sm d2c it sig chk (pre ++ (b, itemsB) :: post)).filter _ ++ [])
        = ((aouEmits sm d2c it sig chk [(b, itemsB)]).filter _ ++ [])
    rw [aouEmits_append]
    rw [show (b, itemsB) :: post = [(b, itemsB)] ++ post from rfl, aouEmits_append]
    rw [List.filter_append, List.filter_append]
    rw [aouEmits_filter_other sm d2c it sig chk b pre hpre,
        aouEmits_filter_other sm d2c it sig chk b post hpost]
    simp
  · show alookup b (aouLoop sm d2c it sig chk (pre ++ (b, itemsB) :: post) aouInit).errLog
      = alookup b (aouLoop sm d2c it sig chk [(b, itemsB)] aouInit).errLog
    rw [show pre ++ (b, itemsB) :: post = (pre ++ [(b, itemsB)]) ++ post by simp]
    rw [aouLoop_append]
    rw [aouLoop_errLog_other sm d2c it sig chk post _ b hpost]
    rw [aouLoop_append]
    rw [aouLoop_single_errLog, aouLoop_single_errLog]
    cases hcond : (sm b itemsB chk).2.isEmpty with
    | true =>
      show alookup b (aouLoop sm d2c it sig chk pre aouInit).errLog
          = alookup b aouInit.errLog
      exact aouLoop_errLog_other sm d2c it sig chk pre aouInit b hpre
    | false =>
      show alookup b (aset b (sm b itemsB chk).2
            (aouLoop sm d2c it sig chk pre aouInit).errLog)
          = alookup b (aset b (sm b itemsB chk).2 aouInit.errLog)
      rw [alookup_aset_self, alookup_aset_self]
  · show ((aouLoop sm d2c it sig chk (pre ++ (b, itemsB) :: post) aouInit).storeCalls).filter
        (fun q => q.1 == b)
      = ((aouLoop sm d2c it sig chk [(b, itemsB)] aouInit).storeCalls).filter
        (fun q => q.1 == b)
    rw [aouLoop_storeCalls, aouLoop_storeCalls]
    rw [List.map_append, show (b, itemsB) :: post = [(b, itemsB)] ++ post from rfl,
        List.map_append]
    rw [List.filter_append, List.filter_append, List.filter_append]
    rw [aouCalls_filter_other chk b pre hpre, aouCalls_filter_other chk b post hpost]
    simp

/-- Witness for C5: a bad-rows connection 0 before and an empty-batch connection 2
after connection 1 do not change connection 1's emissions, log entry or store
call. -/
theorem add_or_update_multi_connection_isolation_witness :
    (addOrUpdateItems (fun c items _ => if c = 0 then ([], ["bad"]) else (items, []))
        (fun _ _ x => x) "object" "sig" true
        ([(0, [9])] ++ (1, [4, 5]) :: [(2, [])])).emissions.filter
        (Emission.isItemsSignalFor 1)
      = (addOrUpdateItems (fun c items _ => if c = 0 then ([], ["bad"]) else (items, []))
        (fun _ _ x => x) "object" "sig" true [(1, [4, 5])]).emissions.filter
        (Emission.isItemsSignalFor 1) :=
  (add_or_update_multi_connection_isolation
    (fun c items _ => if c = 0 then ([], ["bad"]) else (items, []))
    (fun _ _ x => x) "object" "sig" true [(0, [9])] [(2, [])] 1 [4, 5]
    (by decide) (by decide)).1

/-- **C6** — partial failure on one connection: when the store applies some rows
and rejects others, `_add_or_update_items` emits exactly one items signal for the
connection carrying the applied rows (in cache form) followed by the error report
in which the connection's entry is verbatim the store's row-error list; with no
errors only the items signal is emitted; when zero rows were applied no items
signal is emitted at all. -/
theorem add_or_update_partial_failure_single_connection
    (sm : Conn → List Item → Bool → List Item × List ErrMsg)
    (d2c : Conn → ItemType → Item → CacheItem) (it : ItemType) (sig : String)
    (chk : Bool) (c : Conn) (items applied : List Item) (errors : List ErrMsg)
    (hsm : sm c items chk = (applied, errors)) :
    (applied ≠ [] → errors ≠ [] →
      (addOrUpdateItems sm d2c it sig chk [(c, items)]).emissions
        = [.itemsSignal sig c (applied.map (d2c c it)),
           .errorMsgLists [(c, errors)]]) ∧
    (applied ≠ [] → errors = [] →
      (addOrUpdateItems sm d2c it sig chk [(c, items)]).emissions
        = [.itemsSignal sig c (applied.map (d2c c it))]) ∧
    (applied = [] →
      (addOrUpdateItems sm d2c it sig chk [(c, items)]).emissions.filter
        Emission.isItemsSignal = []) ∧
    (errors ≠ [] →
      alookup c (addOrUpdateItems sm d2c it sig chk [(c, items)]).errLog
        = some errors) := by
  have hemLoop : (aouLoop sm d2c it sig chk [(c, items)] aouInit).emissions
      = if applied.isEmpty then []
        else [Emission.itemsSignal sig c (applied.map (d2c c it))] := by
    rw [aouLoop_emissions]
    simp [aouEmits, aouEmitOf, hsm, aouInit]
  have herrLog : (aouLoop sm d2c it sig chk [(c, items)] aouInit).errLog
      = if errors.isEmpty then [] else [(c, errors)] := by
    rw [aouLoop_single_errLog]
    simp [hsm, aset, aouInit]
  refine ⟨?_, ?_, ?_, ?_⟩
  · intro ha he
    have ha' : applied.isEmpty = false := by
      cases applied with | nil => exact absurd rfl ha | cons x xs => rfl
    have he' : errors.isEmpty = false := by
      cases errors with | nil => exact absurd rfl he | cons x xs => rfl
    show (aouLoop sm d2c it sig chk [(c, items)] aouInit).emissions ++ _ = _
    rw [hemLoop, herrLog]
    simp [ha', he', anyTruthyLists]
  · intro ha he
    subst he
    have ha' : applied.isEmpty = false := by
      cases applied with | nil => exact absurd rfl ha | cons x xs => rfl
    show (aouLoop sm d2c it sig chk [(c, items)] aouInit).emissions ++ _ = _
    rw [hemLoop, herrLog]
    simp [ha', anyTruthyLists]
  · intro ha
    subst ha
    show ((aouLoop sm d2c it sig chk [(c, items)] aouInit).emissions ++ _).filter
        Emission.isItemsSignal = []
    rw [hemLoop]
    cases anyTruthyLists (aouLoop sm d2c it sig chk [(c, items)] aouInit).errLog <;>
      simp [Emission.isItemsSignal]
  · intro he
    have he' : errors.isEmpty = false := by
      cases errors with | nil => exact absurd rfl he | cons x xs => rfl
    show alookup c (aouLoop sm d2c it sig chk [(c, items)] aouInit).errLog = some errors
    rw [herrLog]
    simp [he', alookup]

/-- Witness for C6: the store applies row 4 and rejects one row with message
"bad row" — one items signal then the error report. -/
theorem add_or_update_partial_failure_single_connection_witness :
    (addOrUpdateItems (fun _ _ _ => ([4], ["bad row"])) (fun _ _ x => x + 100)
        "object" "sig" true [(0, [1, 2])]).emissions
      = [Emission.itemsSignal "sig" 0 [104],
         Emission.errorMsgLists [(0, ["bad row"])]] := by
  have h := (add_or_update_partial_failure_single_connection
    (fun _ _ _ => ([4], ["bad row"])) (fun _ _ x => x + 100) "object" "sig" true
    0 [1, 2] [4] ["bad row"] rfl).1 (by decide) (by decide)
  simpa using h

end SpineDB
